import Mathlib

/-!
Verification development for the compis parser front-end
(src/scanner.c, src/parser.c, src/scope.c, src/typeid.c, src/universe.c).

The C sources are shallowly embedded: bytes are `Nat` (values < 256, with the
byte one past the end of the mapped input read as 0), machine integers are
`Nat` with explicit wrapping where the C code relies on it, pointers to AST
nodes are numeric ids into a node store (so C pointer equality is id
equality), and interned symbols are `String`s (the interner guarantees
pointer equality iff byte equality, so strings model symbols exactly).
Memory allocation is modelled as always succeeding, matching the claims'
premise that allocations succeed.

Items that live in headers not present under src/ (token kinds, node kinds,
expression flags, `types_iscompat`, `TYPEID_PREFIX`, keyword table contents)
are modelled from the spec; each such definition carries a doc comment
starting with `Modelled from the spec:`.
-/

set_option maxHeartbeats 4000000

namespace Compis

/-- Modelled from the spec: the token kinds of tokens.h (spec section 4.1
lists the token set; only tokens actually produced or consumed by
scanner.c / parser.c appear). -/
inductive Tok where
  | TEOF | TSEMI
  | TLPAREN | TRPAREN | TLBRACE | TRBRACE | TLBRACK | TRBRACK
  | TCOMMA | TDOT | TDOTDOT | TDOTDOTDOT | THASH | TCOLON | TQUESTION
  | TPLUS | TMINUS | TSTAR | TSLASH | TPERCENT
  | TAND | TOR | TXOR | TTILDE | TNOT | TLT | TGT | TLTEQ | TGTEQ
  | TEQ | TNEQ | TSHL | TSHR | TANDAND | TOROR
  | TASSIGN | TADDASSIGN | TSUBASSIGN | TMULASSIGN | TDIVASSIGN
  | TMODASSIGN | TSHLASSIGN | TSHRASSIGN | TANDASSIGN | TXORASSIGN
  | TORASSIGN | TPLUSPLUS | TMINUSMINUS
  | TID | TINTLIT | TFLOATLIT
  | TFUN | TTYPE | TLET | TVAR | TIF | TELSE | TFOR | TRETURN | TMUT | TTHIS
deriving DecidableEq, Repr, Inhabited

/-- Structured diagnostics: one constructor per `error`/`warning` call site of
scanner.c and parser.c (the formatted message text is represented by the
constructor and its payloads; the diagnostics sink only receives
(range, severity, message)). -/
inductive DMsg where
  -- scanner.c
  | scanOutOfMem
  | scanInvalidBaseLit (base : Nat)
  | scanIntTooLarge
  | scanTrailingUnderscore
  | scanInvalidUtf8
  | scanUnexpectedByte (b : Nat)
  -- parser.c
  | unexpectedTok (t : Tok) (ctx : Nat)      -- "unexpected T <msg>"; ctx tags the errmsg
  | expectedTok (want got : Tok) (ctx : Nat) -- "expected W <msg>, got G"
  | unknownType (name : String)
  | notAType (name : String)
  | duplicateField (name : String)
  | fieldConflictsMethod (name : String)
  | excessFieldInit
  | missingFieldInit
  | fieldInitTypeMismatch
  | incompatibleTypes
  | redefinition (name : String)
  | undeclaredIdent (name : String)
  | cannotUseAsExpr (name : String)
  | letMissingInit
  | refMissingInit
  | condNotBool
  | condNotExpr
  | unreachableCode
  | intLitOverflows (isneg : Bool) (tkind : Nat)
  | invalidFloatConst
  | floatTooLarge32
  | floatTooLarge64
  | derefNonRef
  | refToRef
  | refEphemeral
  | mutRefToImmutable
  | callNonFunOrType
  | dotShorthandNoCtx
  | thisOutsideMethod
  | expectingType
  | duplicateMethod (name : String)
  | duplicateMember (name : String)
  | previouslyDefinedHere
  | missingFunName
  | funBodyWithoutNamedParams
deriving DecidableEq, Repr

structure Diag where
  isErr : Bool
  msg : DMsg
deriving DecidableEq, Repr

/-- A scanned token, as the parser observes it through the scanner state:
kind, source location, interned symbol (`s->sym`, meaningful for identifiers
and keywords), decoded integer value (`s->litint`), and the literal buffer
(`s->litbuf`, meaningful for float literals). -/
structure Token where
  kind : Tok
  line : Nat := 0
  col : Nat := 0
  sym : String := ""
  litint : Nat := 0
  litbuf : List Nat := []
deriving DecidableEq, Repr, Inhabited

-- — byte classification (C ctype, "C" locale / ASCII) —

def isdigitB (b : Nat) : Bool := 48 ≤ b && b ≤ 57
def isupperB (b : Nat) : Bool := 65 ≤ b && b ≤ 90
def islowerB (b : Nat) : Bool := 97 ≤ b && b ≤ 122
def isalphaB (b : Nat) : Bool := isupperB b || islowerB b
def isalnumB (b : Nat) : Bool := isdigitB b || isalphaB b
def isspaceB (b : Nat) : Bool := b = 32 || (9 ≤ b && b ≤ 13)
def isWordB (b : Nat) : Bool := isalnumB b || b = 95

/-- UTF8_SELF. -/
def UTF8_SELF : Nat := 128

-- ——————————————————————————————————————————————————————————————————————————
-- scanner.c

/-- Scanner state (scanner_t): the input byte buffer plus cursor `inp`,
line bookkeeping, the insert-semicolon flag, and the fields of the current
token. `inend` is `input.length`; a read at or past `inend` yields 0 (the
zero page after the memory-mapped input). `fuelOut` records exhaustion of a
fuel-capped loop; it is proved unreachable for the fuel the driver passes. -/
structure ScanSt where
  input : List Nat
  inp : Nat := 0
  lineno : Nat := 1
  linestart : Nat := 0
  insertsemi : Bool := false
  tokT : Tok := .TEOF
  tokLine : Nat := 1
  tokCol : Nat := 1
  tokstart : Nat := 0
  tokend : Nat := 0
  litlenoffs : Nat := 0
  litint : Nat := 0
  litbuf : List Nat := []
  symS : String := ""
  diags : List Diag := []
  fuelOut : Bool := false
deriving DecidableEq, Repr

def byteAt (s : ScanSt) (i : Nat) : Nat := s.input.getD i 0

def inend (s : ScanSt) : Nat := s.input.length

/-- stop_scanning: move cursor to end of source so the next scan yields TEOF. -/
def stop_scanning (s : ScanSt) : ScanSt :=
  { s with inp := s.input.length, tokT := .TEOF }

/-- scanner.c `error`: report a diagnostic, then halt the scanner. -/
def scanErr (s : ScanSt) (m : DMsg) : ScanSt :=
  stop_scanning { s with diags := s.diags ++ [⟨true, m⟩] }

/-- scanner_lit: the bytes of the current token
(`[tokstart, inp)` minus `litlenoffs`). -/
def scanner_lit (s : ScanSt) : List Nat :=
  (s.input.drop s.tokstart).take (s.inp - s.tokstart - s.litlenoffs)

def bytesToString (bs : List Nat) : String :=
  String.mk (bs.map (fun b => Char.ofNat b))

/-- sym_intern: interning is modelled by the byte string itself
(pointer equality of symbols iff byte equality). -/
def sym_intern (bs : List Nat) : String := bytesToString bs

/-- Fuel iteration, written with a bare `Nat.rec` so that concrete runs
reduce step by step (the step function is one shared closure). `z` is the
out-of-fuel value; the step receives the decremented fuel and the
next-level function. -/
def natIter1 (α : Type) (z : α) (s : Nat → α → α) (n : Nat) : α :=
  Nat.rec z s n

/-- List recursion, written with a bare `List.rec` for the same reason. -/
def listIter (σ α : Type) (z : α) (s : σ → List σ → α → α) (l : List σ) : α :=
  List.rec z s l

/-- The whitespace-skipping loop at the top of scan0: returns the new
`inp`, `lineno` and `linestart` after consuming leading whitespace of
`bytes` (which is `input.drop inp`). -/
def wsScan : List Nat → Nat → Nat → Nat → Nat × Nat × Nat :=
  listIter Nat (Nat → Nat → Nat → Nat × Nat × Nat)
    (fun inp ln ls => (inp, ln, ls))
    (fun b _ ih inp ln ls =>
      if isspaceB b then
        if b = 10 then ih (inp + 1) (ln + 1) (inp + 1)
        else ih (inp + 1) ln ls
      else (inp, ln, ls))

/-- The digit-accumulation loop of `number` (scanner.c). Processes bytes
until a terminator; returns `(consumed, acc, any, c, rewindToFloat)` where
`c` is the value the C variable `c` holds when the loop exits. Mirrors the
cutoff/cutlim overflow tracking of the C code. The `.err` result is the
`c >= base` in-loop error ("invalid base-N integer literal"). -/
inductive NumRes where
  | done (consumed acc : Nat) (any : Int) (c : Nat)
  | float
  | err (base : Nat)
deriving DecidableEq, Repr

def numScan (base cutoff cutlim : Nat) : List Nat → Nat → Int → NumRes :=
  listIter Nat (Nat → Int → NumRes)
    (fun acc any => .done 0 acc any 0)   -- exit by inp == inend; c = *inend = 0
    (fun b _ ih acc any =>
    if b = 95 then   -- '_' : ignore
      match ih acc any with
      | .done n acc' any' c => .done (n + 1) acc' any' c
      | r => r
    else if b = 46 then  -- '.'
      if base = 10 ∨ base = 16 then .float
      else .err base     -- c = base, triggers the c >= base error branch
    else if isalnumB b then
      let v : Nat :=
        if isdigitB b then b - 48
        else if isupperB b then b - 55   -- c -= 'A' - 10
        else b - 87                      -- c -= 'a' - 10
      if base ≤ v then .err base
      else
        let bad := any < 0 ∨ cutoff < acc ∨ (acc = cutoff ∧ cutlim < v)
        let acc' := if bad then acc else acc * base + v
        let any' : Int := if bad then -1 else 1
        match ih acc' any' with
        | .done n acc2 any2 c => .done (n + 1) acc2 any2 c
        | r => r
    else .done 0 acc any b)   -- default: goto end, c holds the raw byte

/-- The character-collection loop of `floatnumber`: the bytes pushed to the
literal buffer (underscores are skipped). -/
def floatScan (base : Nat) : List Nat → Bool → List Nat :=
  listIter Nat (Bool → List Nat)
    (fun _ => [])
    (fun b _ ih allowsign =>
    if b = 69 ∨ b = 101 then b :: ih true                           -- E e
    else if b = 80 ∨ b = 112 then                                   -- P p
      if base < 16 then [] else b :: ih true
    else if b = 43 ∨ b = 45 then                                    -- + -
      if allowsign then b :: ih allowsign else []
    else if b = 95 then ih allowsign                                -- _
    else if b = 46 then b :: ih false                               -- .
    else if isalnumB b then b :: ih false
    else [])

/-- Number of input bytes `floatScan` consumed (pushed bytes plus skipped
underscores). -/
def floatConsumed (base : Nat) : List Nat → Bool → Nat :=
  listIter Nat (Bool → Nat)
    (fun _ => 0)
    (fun b _ ih allowsign =>
    if b = 69 ∨ b = 101 then 1 + ih true
    else if b = 80 ∨ b = 112 then
      if base < 16 then 0 else 1 + ih true
    else if b = 43 ∨ b = 45 then
      if allowsign then 1 + ih allowsign else 0
    else if b = 95 then 1 + ih allowsign
    else if b = 46 then 1 + ih false
    else if isalnumB b then 1 + ih false
    else 0)

/-- floatnumber (scanner.c): switch to TFLOATLIT, collect the literal's
textual form into litbuf (prefixed "0x" for base 16). Does not touch
`insertsemi`. -/
def floatnumber (s : ScanSt) (base : Nat) : ScanSt :=
  let pre : List Nat := if base = 16 then [48, 120] else []
  let rest := s.input.drop s.inp
  let bs := floatScan base rest false
  let n := floatConsumed base rest false
  { s with tokT := .TFLOATLIT, litbuf := pre ++ bs, inp := s.inp + n }

/-- number (scanner.c). -/
def number (s : ScanSt) (base : Nat) : ScanSt :=
  let s := { s with tokT := .TINTLIT, insertsemi := true, litint := 0 }
  let cutoff := 0xFFFFFFFFFFFFFFFF / base
  let cutlim := 0xFFFFFFFFFFFFFFFF % base
  match numScan base cutoff cutlim (s.input.drop s.inp) 0 0 with
  | .float => floatnumber s base   -- s->inp = start_inp (rewind): inp unchanged
  | .err b => scanErr s (.scanInvalidBaseLit b)
  | .done n acc any c =>
    let s := { s with inp := s.inp + n, litint := acc }
    let s := if any < 0 then scanErr s .scanIntTooLarge else s
    if c = 95 then scanErr s .scanTrailingUnderscore else s

/-- zeronumber (scanner.c). -/
def zeronumber (s : ScanSt) : ScanSt :=
  if s.inp < inend s then
    let b := byteAt s s.inp
    if b = 88 ∨ b = 120 then number { s with inp := s.inp + 1 } 16
    else if b = 66 ∨ b = 98 then number { s with inp := s.inp + 1 } 2
    else if b = 79 ∨ b = 111 then number { s with inp := s.inp + 1 } 8
    else number s 10
  else number s 10

/-- utf8seq (scanner.c): validates a UTF-8 sequence starting at index `i`;
returns (bytes consumed, ok). Reads past `inend` observe the 0 sentinel,
exactly like the C code's `*s->inp == 0` length checks. -/
def utf8seq (s : ScanSt) (i : Nat) : Nat × Bool :=
  let a := byteAt s i
  if ¬(a &&& 0xc0 = 0xc0) ∨ ¬(byteAt s (i + 1) &&& 0xc0 = 0x80) then (1, false)
  else if byteAt s (i + 1) = 0 then (2, false)
  else if a >>> 5 = 0x6 then (2, true)
  else if byteAt s (i + 2) = 0 then (3, false)
  else if a >>> 4 = 0xE then (3, true)
  else if byteAt s (i + 3) = 0 then (4, false)
  else if a >>> 3 = 0x1E then (4, true)
  else (4, false)

/-- intern_identifier (scanner.c). -/
def intern_identifier (s : ScanSt) : ScanSt :=
  { s with symS := sym_intern (scanner_lit s) }

/-- The loop of identifier_utf8 (scanner.c). Fuel-capped; each iteration
consumes at least one byte, so fuel `inend - inp + 1` never runs out. -/
def identU8Loop : Nat → ScanSt → ScanSt :=
  natIter1 (ScanSt → ScanSt)
    (fun s => { s with fuelOut := true })
    (fun _ ih s =>
    if s.inp < inend s then
      let b := byteAt s s.inp
      if UTF8_SELF ≤ b then
        let (k, ok) := utf8seq s s.inp
        if ok then ih { s with inp := s.inp + k }
        else scanErr { s with inp := s.inp + k } .scanInvalidUtf8
      else if isWordB b then ih { s with inp := s.inp + 1 }
      else { s with tokT := .TID } |> intern_identifier
    else { s with tokT := .TID } |> intern_identifier)

/-- identifier_utf8 (scanner.c): does NOT set `insertsemi` and does not
check for keywords. -/
def identifier_utf8 (s : ScanSt) : ScanSt :=
  identU8Loop (inend s - s.inp + 1) s

/-- Modelled from the spec: the sorted keyword table of tokens.h
(spec section 4.1: keywords `fun type let var if else for return mut this`). -/
def keywordtab : List (String × Tok) :=
  [("else", .TELSE), ("for", .TFOR), ("fun", .TFUN), ("if", .TIF),
   ("let", .TLET), ("mut", .TMUT), ("return", .TRETURN), ("this", .TTHIS),
   ("type", .TTYPE), ("var", .TVAR)]

/-- C `strncmp(a, b, n)`: compare at most n bytes, stopping at a NUL of b
(the keyword strings are NUL-terminated; the literal slice is length-bounded).
Returns negative/zero/positive as Int. -/
def strncmpBytes (as bs : List Nat) (n : Nat) : Int :=
  natIter1 (List Nat → List Nat → Int)
    (fun _ _ => 0)
    (fun _ ih as bs =>
      match as, bs with
      | [], [] => 0
      | [], b :: _ => 0 - (b : Int)  -- lit's NUL (not NUL-terminated; n bounds it)
      | a :: _, [] => (a : Int)      -- keyword's NUL terminator
      | a :: as, b :: bs =>
        if a = b then
          if a = 0 then 0 else ih as bs
        else (a : Int) - (b : Int))
    n as bs

def strBytes (s : String) : List Nat := s.data.map Char.toNat

/-- The binary search of maybe_keyword (scanner.c). It compares only
`lit.len` bytes (`strncmp(lit.chars, keywordtab[mid].s, lit.len)`), so a
proper prefix of a keyword that the search lands on is classified as that
keyword. The fuel bounds the interval width `high - low`, which shrinks
strictly each round, so fuel `keywordtab.length + 1` always suffices. -/
def kwSearch (lit : List Nat) : Nat → Nat → Nat → Option Tok :=
  natIter1 (Nat → Nat → Option Tok)
    (fun _ _ => none)
    (fun _ ih low high =>
    if low < high then
      let mid := (low + high) / 2
      let (kw, t) := keywordtab.getD mid ("", .TID)
      let cmp := strncmpBytes lit (strBytes kw ++ [0]) lit.length
      if cmp = 0 then some t
      else if cmp < 0 then ih low mid
      else ih (mid + 1) high
    else none)

def maybe_keyword (s : ScanSt) : ScanSt :=
  match kwSearch (scanner_lit s) (keywordtab.length + 1) 0 keywordtab.length with
  | some t => { s with tokT := t }
  | none => s

/-- The ASCII word-character run at the start of identifier (scanner.c). -/
def asciiWordCount : List Nat → Nat :=
  listIter Nat Nat 0 (fun b _ ih => if isWordB b then ih + 1 else 0)

/-- identifier (scanner.c): consume `[A-Za-z0-9_]*`; if a UTF-8 byte
follows, delegate to identifier_utf8 (which does not set insertsemi);
otherwise set TID, set insertsemi, intern, and reclassify keywords. -/
def identifier (s : ScanSt) : ScanSt :=
  let n := asciiWordCount (s.input.drop s.inp)
  let s := { s with inp := s.inp + n }
  if s.inp < inend s ∧ UTF8_SELF ≤ byteAt s s.inp then identifier_utf8 s
  else
    maybe_keyword (intern_identifier { s with tokT := .TID, insertsemi := true })

/-- Line-comment byte count: bytes up to (not including) the next LF. -/
def lineCommentCount : List Nat → Nat :=
  listIter Nat Nat 0 (fun b _ ih => if b = 10 then 0 else ih + 1)

/-- Block-comment loop of skip_comment: walks bytes, counting newlines,
stopping after the `*/` terminator; `prev` is the previous byte and
`prevIsOpenStar` says whether the previous byte was the `*` of the `/*`
opener (the `s->inp - 1 != startstar` check). Returns
(consumed, newline indices relative to the start). -/
def blockCommentScan : List Nat → Nat → Bool → Nat → Nat × List Nat :=
  listIter Nat (Nat → Bool → Nat → Nat × List Nat)
    (fun _ _ _ => (0, []))
    (fun b _ ih prev prevIsOpenStar idx =>
    if b = 10 then
      let (n, nls) := ih b false (idx + 1)
      (n + 1, idx :: nls)
    else if b = 47 ∧ prev = 42 ∧ ¬prevIsOpenStar then (1, [])
    else
      let (n, nls) := ih b false (idx + 1)
      (n + 1, nls))

/-- skip_comment (scanner.c). Entered with `inp` at the first `/`. -/
def skip_comment (s : ScanSt) : ScanSt :=
  let c := byteAt s (s.inp + 1)
  if c = 47 then    -- line comment
    let s := { s with inp := s.inp + 2 }
    { s with inp := s.inp + lineCommentCount (s.input.drop s.inp) }
  else              -- block comment
    let start := s.inp + 2
    let (n, nls) := blockCommentScan (s.input.drop start) 42 true 0
    let s := { s with inp := start + n }
    match nls.getLast? with
    | some last =>
      { s with lineno := s.lineno + nls.length, linestart := start + last + 1 }
    | none => s

/-- scan0 and scan1 (scanner.c) are mutually recursive through the
comment-restart path; they are packed into one fuel iterator (`false`
selects scan1, `true` scan0), with the named wrappers below. The fuel only
bounds the comment restarts; every restart first consumes the (≥ 2 byte)
comment, so `inend + 2` suffices.

scan1: scan one token starting at a non-space byte. -/
def scanGo : Nat → Bool → ScanSt → ScanSt :=
  natIter1 (Bool → ScanSt → ScanSt)
    (fun _ s => { s with fuelOut := true })
    (fun _ ih is0 s =>
    if is0 = false then
    let s := { s with tokstart := s.inp, tokLine := s.lineno,
                      tokCol := s.inp - s.linestart + 1 }
    let insertsemi := s.insertsemi
    let s := { s with insertsemi := false }
    let c := byteAt s s.inp
    let s := { s with inp := s.inp + 1 }
    if c = 40 then { s with tokT := .TLPAREN }
    else if c = 41 then { s with insertsemi := true, tokT := .TRPAREN }
    else if c = 123 then { s with tokT := .TLBRACE }
    else if c = 125 then { s with insertsemi := true, tokT := .TRBRACE }
    else if c = 91 then { s with tokT := .TLBRACK }
    else if c = 93 then { s with insertsemi := true, tokT := .TRBRACK }
    else if c = 59 then { s with tokT := .TSEMI }
    else if c = 44 then { s with tokT := .TCOMMA }
    else if c = 43 then { s with tokT := .TPLUS }
    else if c = 42 then { s with tokT := .TSTAR }
    else if c = 37 then { s with tokT := .TPERCENT }
    else if c = 38 then { s with tokT := .TAND }
    else if c = 124 then { s with tokT := .TOR }
    else if c = 94 then { s with tokT := .TXOR }
    else if c = 126 then { s with tokT := .TTILDE }
    else if c = 35 then { s with tokT := .THASH }
    else if c = 60 then { s with tokT := .TLT }
    else if c = 62 then { s with tokT := .TGT }
    else if c = 61 then
      if s.inp < inend s ∧ byteAt s s.inp = 61 then
        { s with inp := s.inp + 1, tokT := .TEQ }
      else { s with tokT := .TASSIGN }
    else if c = 48 then zeronumber s
    else if c = 46 then
      if s.inp < inend s then
        let b := byteAt s s.inp
        if isdigitB b then floatnumber { s with inp := s.inp - 1 } 10
        else if b = 46 then
          let s := { s with tokT := .TDOTDOT, inp := s.inp + 1 }
          if s.inp < inend s ∧ byteAt s s.inp = 46 then
            { s with inp := s.inp + 1, tokT := .TDOTDOTDOT }
          else s
        else { s with tokT := .TDOT }
      else { s with tokT := .TDOT }
    else if c = 47 then
      if s.inp < inend s ∧ (byteAt s s.inp = 47 ∨ byteAt s s.inp = 42) then
        let s := { s with inp := s.inp - 1, insertsemi := insertsemi }
        ih true (skip_comment s)
      else { s with tokT := .TSLASH }
    else if isdigitB c then number { s with inp := s.inp - 1 } 10
    else if UTF8_SELF ≤ c then identifier_utf8 { s with inp := s.inp - 1 }
    else if isalphaB c ∨ c = 95 then identifier s
    else scanErr s (.scanUnexpectedByte c)
    else
    -- scan0 (scanner.c): skip whitespace, maybe synthesize an implicit
    -- semicolon at a crossed newline, maybe report EOF (with one final
    -- implicit semicolon), otherwise scan a token.
    let s := { s with litlenoffs := 0 }
    let prevLineno := s.lineno
    let prevLinestart := s.linestart
    let (inp', ln', ls') := wsScan (s.input.drop s.inp) s.inp s.lineno s.linestart
    let s := { s with inp := inp', lineno := ln', linestart := ls' }
    if prevLinestart ≠ s.linestart ∧ s.insertsemi then
      { s with insertsemi := false, tokstart := prevLinestart, tokT := .TSEMI,
               tokLine := prevLineno, tokCol := s.tokend - prevLinestart + 1 }
    else if inend s ≤ s.inp then
      let s := { s with tokstart := inend s, tokT := .TEOF, tokLine := s.lineno,
                        tokCol := inend s - s.linestart + 1 }
      if s.insertsemi then { s with tokT := .TSEMI, insertsemi := false } else s
    else ih false s)

/-- scan0 (scanner.c). -/
def scan0 (fuel : Nat) (s : ScanSt) : ScanSt := scanGo fuel true s

/-- scan1 (scanner.c). -/
def scan1 (fuel : Nat) (s : ScanSt) : ScanSt := scanGo fuel false s

/-- scanner_next (scanner.c). -/
def scanner_next (s : ScanSt) : ScanSt :=
  scan0 (inend s + 2) { s with tokend := s.inp }

/-- The current token record, as the parser observes it through the
scanner's state. -/
def mkToken (s : ScanSt) : Token :=
  ⟨s.tokT, s.tokLine, s.tokCol, s.symS, s.litint, s.litbuf⟩

/-- Pull tokens until TEOF. Each `scanner_next` either consumes input bytes,
or consumes the pending insert-semi flag, or is at EOF, so
`2*len + 4` pulls always reach TEOF. -/
def tokLoop : Nat → ScanSt → List Token × ScanSt :=
  natIter1 (ScanSt → List Token × ScanSt)
    (fun s => ([], { s with fuelOut := true }))
    (fun _ ih s =>
    let s := scanner_next s
    let t := mkToken s
    if t.kind = .TEOF then ([t], s)
    else
      let (ts, s') := ih s
      (t :: ts, s'))

/-- Eager tokenization of a whole input. The C parser pulls tokens lazily,
but it only ever reads the scanner's current token state and never feeds
information back into scanning (lookahead_issym restores the scanner state it
saved), so the token sequence is exactly this eager one. -/
def tokenize (input : List Nat) : List Token × ScanSt :=
  tokLoop (2 * input.length + 4) { input := input }

/-- Token kinds after which scanner.c sets the insert-semicolon flag,
as the spec claims them: `) ] }`, identifiers, numeric literals, and the
keyword `return` (spec section 4.1). -/
def specInsertSemiToks : List Tok :=
  [.TRPAREN, .TRBRACK, .TRBRACE, .TID, .TINTLIT, .TFLOATLIT, .TRETURN]

-- ——————————————————————————————————————————————————————————————————————————
-- AST node kinds and flags

/-- Modelled from the spec: node kinds (spec section 3 "Node kinds"; the
numeric values of the C enum are irrelevant, only the kind partition is). -/
inductive NK where
  | NODE_BAD | NODE_UNIT | STMT_TYPEDEF
  | TYPE_VOID | TYPE_BOOL | TYPE_I8 | TYPE_I16 | TYPE_I32 | TYPE_I64
  | TYPE_INT | TYPE_F32 | TYPE_F64 | TYPE_UNKNOWN
  | TYPE_PTR | TYPE_REF | TYPE_MUTREF | TYPE_OPTIONAL | TYPE_SLICE
  | TYPE_MUTSLICE | TYPE_STRUCT | TYPE_FUN | TYPE_ARRAY | TYPE_ALIAS
  | EXPR_ID | EXPR_INTLIT | EXPR_FLOATLIT | EXPR_BOOLLIT
  | EXPR_PREFIXOP | EXPR_POSTFIXOP | EXPR_BINOP | EXPR_DEREF
  | EXPR_CALL | EXPR_MEMBER | EXPR_BLOCK | EXPR_IF | EXPR_FOR
  | EXPR_RETURN | EXPR_LET | EXPR_VAR | EXPR_PARAM | EXPR_FIELD | EXPR_FUN
deriving DecidableEq, Repr, Inhabited

/-- Modelled from the spec: kind classification (expressions). -/
def nodekind_isexpr : NK → Bool
  | .EXPR_ID | .EXPR_INTLIT | .EXPR_FLOATLIT | .EXPR_BOOLLIT
  | .EXPR_PREFIXOP | .EXPR_POSTFIXOP | .EXPR_BINOP | .EXPR_DEREF
  | .EXPR_CALL | .EXPR_MEMBER | .EXPR_BLOCK | .EXPR_IF | .EXPR_FOR
  | .EXPR_RETURN | .EXPR_LET | .EXPR_VAR | .EXPR_PARAM | .EXPR_FIELD
  | .EXPR_FUN => true
  | _ => false

/-- Modelled from the spec: kind classification (types). -/
def nodekind_istype : NK → Bool
  | .TYPE_VOID | .TYPE_BOOL | .TYPE_I8 | .TYPE_I16 | .TYPE_I32 | .TYPE_I64
  | .TYPE_INT | .TYPE_F32 | .TYPE_F64 | .TYPE_UNKNOWN
  | .TYPE_PTR | .TYPE_REF | .TYPE_MUTREF | .TYPE_OPTIONAL | .TYPE_SLICE
  | .TYPE_MUTSLICE | .TYPE_STRUCT | .TYPE_FUN | .TYPE_ARRAY
  | .TYPE_ALIAS => true
  | _ => false

/-- Modelled from the spec: primitive type kinds (spec section 3: the
process-wide singleton types of universe.c). -/
def nodekind_isprimtype : NK → Bool
  | .TYPE_VOID | .TYPE_BOOL | .TYPE_I8 | .TYPE_I16 | .TYPE_I32 | .TYPE_I64
  | .TYPE_INT | .TYPE_F32 | .TYPE_F64 | .TYPE_UNKNOWN => true
  | _ => false

/-- Modelled from the spec: user-defined (reference-counted) type kinds. -/
def nodekind_isusertype : NK → Bool
  | .TYPE_STRUCT | .TYPE_FUN | .TYPE_ARRAY | .TYPE_ALIAS => true
  | _ => false

/-- Modelled from the spec: TYPEID_PREFIX bytes. The spec fixes
`F` fun, `S` struct, `A` array, `O` optional, `L` alias (section 4.5);
the remaining bytes are chosen distinct per kind. -/
def typeidPrefix : NK → Nat
  | .TYPE_VOID => 118 | .TYPE_BOOL => 98 | .TYPE_I8 => 49 | .TYPE_I16 => 50
  | .TYPE_I32 => 52 | .TYPE_I64 => 56 | .TYPE_INT => 105 | .TYPE_F32 => 102
  | .TYPE_F64 => 100 | .TYPE_UNKNOWN => 117
  | .TYPE_PTR => 42 | .TYPE_REF => 38 | .TYPE_MUTREF => 77
  | .TYPE_SLICE => 115 | .TYPE_MUTSLICE => 109
  | .TYPE_STRUCT => 83 | .TYPE_FUN => 70 | .TYPE_ARRAY => 65
  | .TYPE_OPTIONAL => 79 | .TYPE_ALIAS => 76
  | _ => 0

-- Modelled from the spec: exprflag_t bits (the numeric values are not in
-- src/; only bit identity matters to the code).
def EX_RVALUE : Nat := 1
def EX_RVALUE_CHECKED : Nat := 2
def EX_ANALYZED : Nat := 4
def EX_OPTIONAL : Nat := 8
def EX_SHADOWS_OPTIONAL : Nat := 16
def EX_EXITS : Nat := 32

def hasFl (f b : Nat) : Bool := f &&& b ≠ 0
def clrFl (f b : Nat) : Nat := f ^^^ (f &&& b)

-- Precedence ranks (prec_t, parser.c lines 17-35).
def PREC_COMMA : Nat := 0
def PREC_ASSIGN : Nat := 1
def PREC_LOGICAL_OR : Nat := 2
def PREC_LOGICAL_AND : Nat := 3
def PREC_BITWISE_OR : Nat := 4
def PREC_BITWISE_XOR : Nat := 5
def PREC_BITWISE_AND : Nat := 6
def PREC_EQUAL : Nat := 7
def PREC_COMPARE : Nat := 8
def PREC_SHIFT : Nat := 9
def PREC_ADD : Nat := 10
def PREC_MUL : Nat := 11
def PREC_UNARY_PREFIX : Nat := 12
def PREC_UNARY_POSTFIX : Nat := 13
def PREC_MEMBER : Nat := 14
def PREC_LOWEST : Nat := PREC_COMMA

/-- One AST node. The C AST is a family of structs sharing a `node_t`
header, allocated in an arena and freely cast; this models the union of
their fields, with node pointers as ids into the store. Unused fields keep
their defaults (the arena zero-initializes nodes). `sub` is `unaryop_t.expr`,
`left`/`right` are `binop_t.left/right`, `startE`/`endE` are
`forexpr_t.start/end`, `alen` is `arraytype_t.len`. -/
structure NodeData where
  kind : NK := .NODE_BAD
  line : Nat := 0
  col : Nat := 0
  flags : Nat := 0
  nrefs : Nat := 0
  type : Option Nat := none
  name : String := ""
  intval : Nat := 0
  litbuf : List Nat := []
  op : Tok := .TEOF
  left : Nat := 0
  right : Nat := 0
  sub : Nat := 0
  elem : Option Nat := none
  cond : Option Nat := none
  thenb : Option Nat := none
  elseb : Option Nat := none
  startE : Option Nat := none
  endE : Option Nat := none
  body : Option Nat := none
  value : Option Nat := none
  recv : Nat := 0
  children : List Nat := []
  fields : List Nat := []
  methods : List Nat := []
  params : List Nat := []
  args : List Nat := []
  init : Option Nat := none
  ref : Option Nat := none
  size : Nat := 0
  align : Nat := 0
  alen : Nat := 0
  isunsigned : Bool := false
  ismut : Bool := false
  isthis : Bool := false
  hasinit : Bool := false
  tid : Option (List Nat) := none
  methodof : Option Nat := none
  result : Option Nat := none
deriving DecidableEq, Repr, Inhabited

-- ——————————————————————————————————————————————————————————————————————————
-- scope.c

/-- One cell of the scope stack's `void**` array: either a saved base
index, a value (node pointer), a key (symbol), or uninitialized memory. -/
inductive Slot where
  | junk
  | base (n : Nat)
  | val (v : Nat)
  | key (k : String)
deriving DecidableEq, Repr, Inhabited

structure ScopeSt where
  ptr : List Slot := []
  cap : Nat := 0
  len : Nat := 0
  base : Nat := 0
deriving DecidableEq, Repr, Inhabited

/-- scope_clear (scope.c). -/
def scope_clear (s : ScopeSt) : ScopeSt := { s with len := 0, base := 0 }

/-- scope_grow (scope.c): `newcap = (cap + (initcap/2)*!cap)*2`; the fresh
cells are uninitialized. Allocation is modelled as succeeding. -/
def scope_grow (s : ScopeSt) : ScopeSt :=
  let initcap := 4
  let newcap := (s.cap + (initcap / 2) * (if s.cap = 0 then 1 else 0)) * 2
  { s with ptr := s.ptr ++ List.replicate (newcap - s.cap) .junk, cap := newcap }

/-- scope_push (scope.c). -/
def scope_push (s : ScopeSt) : ScopeSt :=
  let s := if s.cap ≤ s.len then scope_grow s else s
  { s with ptr := s.ptr.set s.len (.base s.base), base := s.len, len := s.len + 1 }

/-- The `(u32)(uintptr)` reinterpretation of a stored cell as an index. -/
def slotIdx : Slot → Nat
  | .base n => n
  | .val v => v
  | _ => 0

/-- scope_pop (scope.c): rewind and restore the parent scope's base. -/
def scope_pop (s : ScopeSt) : ScopeSt :=
  { s with len := s.base, base := slotIdx (s.ptr.getD s.base .junk) }

/-- scope_def (scope.c): append value then key. -/
def scope_def (s : ScopeSt) (key : String) (value : Nat) : ScopeSt :=
  let s := if s.cap - s.len < 2 then scope_grow s else s
  { s with ptr := (s.ptr.set s.len (.val value)).set (s.len + 1) (.key key),
           len := s.len + 2 }

def slotIsKey : Slot → String → Bool
  | .key k, key => k = key
  | _, _ => false

/-- The `while (i-- > 1)` loop of scope_lookup (scope.c). `i` strictly
decreases at every recursive call, so fuel `i + 1` always suffices. -/
def scope_lookupAux (ptr : List Slot) (key : String) :
    Nat → Nat → Nat → Nat → Option Slot :=
  natIter1 (Nat → Nat → Nat → Option Slot)
    (fun _ _ _ => none)
    (fun _ ih i base maxdepth =>
    if i ≤ 1 then none
    else
      let j := i - 1
      if j = base then
        if maxdepth = 0 then none
        else ih j (slotIdx (ptr.getD j .junk)) (maxdepth - 1)
      else if slotIsKey (ptr.getD j .junk) key then some (ptr.getD (j - 1) .junk)
      else ih (j - 1) base maxdepth)

/-- scope_lookup (scope.c): scan from the top, skipping base markers and
decrementing maxdepth at each. Returns the first matching value. -/
def scope_lookup (s : ScopeSt) (key : String) (maxdepth : Nat) : Option Nat :=
  match scope_lookupAux s.ptr key (s.len + 1) s.len s.base maxdepth with
  | some sl => some (slotIdx sl)
  | none => none

/-- Modelled from the spec: `scope-is-top-level()` is `base == 0`
(spec section 4.3 invariant). -/
def scope_istoplevel (s : ScopeSt) : Bool := s.base = 0

-- ——————————————————————————————————————————————————————————————————————————
-- parser state (parser_t plus the compiler_t pieces the parser reads)

def U32MAX : Nat := 4294967295

structure St where
  toks : List Token
  nodes : List (Nat × NodeData) := []
  nextId : Nat := 0
  scope : ScopeSt := {}
  pkgdefs : List (String × Nat) := []
  methodmap : List (Nat × List (String × Nat)) := []
  typeidmap : List (List Nat × Nat) := []
  typectx : Nat := 0
  typectxstack : List Nat := []
  dotctx : Option Nat := none
  dotctxstack : List (Option Nat) := []
  funCtx : Option Nat := none
  diags : List Diag := []
  ptrsize : Nat := 8
deriving DecidableEq, Repr, Inhabited

/-- Read the node at arena address `id` (the newest overlay entry wins). -/
def getN (st : St) (id : Nat) : NodeData := (st.nodes.lookup id).getD default

/-- The C `t->field = v` in-place update, as a shadowing overlay entry;
`getN` always reads the newest entry, so this is observationally the
in-place update. -/
def setN (st : St) (id : Nat) (f : NodeData → NodeData) : St :=
  { st with nodes := (id, f (getN st id)) :: st.nodes }

inductive PRes (α : Type) where
  | ok (a : α) (st : St)
  | pan (st : St)        -- panic(): the process aborts
  | nofuel               -- fuel exhaustion of the model (proved unreachable)

def PM (α : Type) := St → PRes α

instance : Monad PM where
  pure a := fun st => .ok a st
  bind m k := fun st =>
    match m st with
    | .ok a st' => k a st'
    | .pan st' => .pan st'
    | .nofuel => .nofuel

def PM.run {α : Type} (m : PM α) (st : St) : PRes α := m st

def getSt : PM St := fun st => .ok st st

def modifySt (f : St → St) : PM Unit := fun st => .ok () (f st)

/-- panic(): the process aborts (clone_node's TODO default arm and
expr_postfix_subscript's TODO). -/
def cpanic {α : Type} : PM α := fun st => .pan st

def currTok (st : St) : Token := st.toks.headD default

def currtokK (st : St) : Tok := (currTok st).kind

/-- currtok as a monadic read. -/
def currtok : PM Tok := fun st => .ok (currtokK st) st

def currsym : PM String := fun st => .ok (currTok st).sym st

def curTok : PM Token := fun st => .ok (currTok st) st

/-- next / scanner_next at the token level: once the scanner is at TEOF it
keeps returning TEOF. -/
def nextSt (st : St) : St :=
  if currtokK st = .TEOF then st else { st with toks := st.toks.tail }

def nextT : PM Unit := fun st => .ok () (nextSt st)

/-- lookahead_issym (parser.c): peek one token ahead, then restore. -/
def lookahead_issym (sym : String) : PM Bool := fun st =>
  let t2 := if currtokK st = .TEOF then currTok st else st.toks.tail.headD default
  .ok (t2.kind = .TID ∧ t2.sym = sym) st

/-- parser.c `error` / `error1`: diagnostics are suppressed once the
scanner is exhausted (`inp == inend && tok == TEOF`, which at the token
level is: the current token is TEOF). -/
def perror (m : DMsg) : PM Unit := fun st =>
  if currtokK st = .TEOF then .ok () st
  else .ok () { st with diags := st.diags ++ [⟨true, m⟩] }

/-- parser.c `warning`: not suppressed at EOF. -/
def pwarning (m : DMsg) : PM Unit := fun st =>
  .ok () { st with diags := st.diags ++ [⟨false, m⟩] }

-- ——————————————————————————————————————————————————————————————————————————
-- universe.c

def idVoid : Nat := 0
def idUnknown : Nat := 1
def idBool : Nat := 2
def idInt : Nat := 3
def idUint : Nat := 4
def idI8 : Nat := 5
def idI16 : Nat := 6
def idI32 : Nat := 7
def idI64 : Nat := 8
def idU8 : Nat := 9
def idU16 : Nat := 10
def idU32 : Nat := 11
def idU64 : Nat := 12
def idF32 : Nat := 13
def idF64 : Nat := 14
def idTrue : Nat := 15
def idFalse : Nat := 16

/-- DEFTYPE (universe.c): kind, size (= align), is-unsigned, and a one-byte
tid `TYPEID_PREFIX(kind)`. Note u8..u64 share the kinds TYPE_I8..TYPE_I64
with `isunsigned`, and uint shares TYPE_INT. -/
def DEFTYPE (kind : NK) (size : Nat) (isu : Bool) : NodeData :=
  { kind := kind, size := size, align := size, isunsigned := isu,
    tid := some [typeidPrefix kind] }

/-- Modelled from the spec: `const_true`/`const_false` (referenced by
universe(); their definition is not under src/): boolean literal
constants of type bool. -/
def constBool (v : Nat) : NodeData :=
  { kind := .EXPR_BOOLLIT, type := some idBool, intval := v }

/-- The process-wide singleton nodes (universe.c) pre-loaded in the store. -/
def univNodes : List (Nat × NodeData) :=
  [(idVoid, DEFTYPE .TYPE_VOID 0 false),
   (idUnknown, DEFTYPE .TYPE_UNKNOWN 0 false),
   (idBool, DEFTYPE .TYPE_BOOL 1 true),
   (idInt, DEFTYPE .TYPE_INT 4 false),
   (idUint, DEFTYPE .TYPE_INT 4 true),
   (idI8, DEFTYPE .TYPE_I8 1 false),
   (idI16, DEFTYPE .TYPE_I16 2 false),
   (idI32, DEFTYPE .TYPE_I32 4 false),
   (idI64, DEFTYPE .TYPE_I64 8 false),
   (idU8, DEFTYPE .TYPE_I8 1 true),
   (idU16, DEFTYPE .TYPE_I16 2 true),
   (idU32, DEFTYPE .TYPE_I32 4 true),
   (idU64, DEFTYPE .TYPE_I64 8 true),
   (idF32, DEFTYPE .TYPE_F32 4 false),
   (idF64, DEFTYPE .TYPE_F64 8 false),
   (idTrue, constBool 1),
   (idFalse, constBool 0)]

/-- The universe map (parser.c `universe()`): name → singleton node. -/
def universeMap : List (String × Nat) :=
  [("void", idVoid), ("bool", idBool), ("int", idInt), ("uint", idUint),
   ("i8", idI8), ("i16", idI16), ("i32", idI32), ("i64", idI64),
   ("u8", idU8), ("u16", idU16), ("u32", idU32), ("u64", idU64),
   ("f32", idF32), ("f64", idF64), ("true", idTrue), ("false", idFalse)]

/-- parser_init + parser_parse entry state: empty parser maps, the
universe as the package map's parent, type context `type_void`,
and the given token stream / pre-existing (scanner) diagnostics. -/
def initSt (toks : List Token) (diags : List Diag) : St :=
  { toks := toks, nodes := univNodes, nextId := 17, typectx := idVoid,
    diags := diags }

-- ——————————————————————————————————————————————————————————————————————————
-- typeid.c

def type_isprim (st : St) (id : Nat) : Bool :=
  nodekind_isprimtype (getN st id).kind

/-- Hex digits, lowercase, most significant first (buf_print_u32/u64 base 16). -/
def hexBytes (v : Nat) : List Nat := (Nat.toDigits 16 v).map Char.toNat

/-- write_u32 (typeid.c): hex digits and a terminating `;`.
The argument is truncated to u32 as in C. -/
def write_u32 (v : Nat) : List Nat := hexBytes (v % 2 ^ 32) ++ [59]

/-- write_u64 (typeid.c). -/
def write_u64 (v : Nat) : List Nat := hexBytes (v % 2 ^ 64) ++ [59]

/-- append (typeid.c), as a pure byte-string computation over the store.
The C version memoizes the result in `t->tid` and interns it; since the
cached value always equals the freshly computed encoding, the byte string
is the same. The fuel bounds recursion depth through the (acyclic) type
graph; `st.nextId + 1` suffices for any store the parser builds. -/
def typeidAppend : Nat → St → Nat → List Nat :=
  natIter1 (St → Nat → List Nat)
    (fun _ _ => [])
    (fun _ ih st id =>
    let n := getN st id
    if type_isprim st id then [(n.tid.getD []).headD 0]
    else match n.tid with
    | some tid => tid
    | none =>
      let pfx := typeidPrefix n.kind
      match n.kind with
      | .TYPE_ARRAY => pfx :: (write_u64 n.alen ++ ih st (n.elem.getD 0))
      | .TYPE_FUN =>
        pfx :: (write_u32 n.params.length ++
          (n.params.foldl (fun acc p =>
            acc ++ ih st ((getN st p).type.getD 0)) []) ++
          ih st (n.result.getD 0))
      | .TYPE_OPTIONAL => pfx :: ih st (n.elem.getD 0)
      | .TYPE_STRUCT =>
        pfx :: (write_u32 n.fields.length ++
          n.fields.foldl (fun acc f =>
            acc ++ ih st ((getN st f).type.getD 0)) [])
      | .TYPE_ALIAS =>
        -- aliastype (typeid.c): `L <u32 namelen> <name-bytes>`; the
        -- underlying type is NOT appended (the function only writes the name)
        pfx :: (write_u32 (strBytes n.name).length ++ strBytes n.name)
      | .TYPE_PTR | .TYPE_REF | .TYPE_MUTREF | .TYPE_SLICE | .TYPE_MUTSLICE =>
        pfx :: ih st (n.elem.getD 0)
      | _ => [pfx])   -- assertf(0): unreachable for well-kinded types

/-- _typeid (typeid.c): the canonical byte signature of a type node. -/
def _typeid (st : St) (id : Nat) : List Nat :=
  typeidAppend (st.nextId + 1) st id

-- ——————————————————————————————————————————————————————————————————————————
-- parser.c: node construction and small helpers

/-- _mknode (parser.c): bump-allocate a zeroed node, set kind and loc. -/
def mknode (kind : NK) : PM Nat := fun st =>
  let t := currTok st
  let id := st.nextId
  .ok id { st with
    nodes := (id, { kind := kind, line := t.line, col := t.col }) :: st.nodes,
    nextId := id + 1 }

/-- _mkexpr (parser.c): a node with expression flags and type `type_void`. -/
def mkexpr (kind : NK) (fl : Nat) : PM Nat := do
  let id ← mknode kind
  modifySt fun st => setN st id fun n => { n with flags := fl, type := some idVoid }
  pure id

/-- mkbad (parser.c): a NODE_BAD placeholder with type `type_void`. -/
def mkbad : PM Nat := do
  let id ← mknode .NODE_BAD
  modifySt fun st => setN st id fun n => { n with type := some idVoid }
  pure id

/-- mkreftype (parser.c): a TYPE_REF node with pointer size/align. -/
def mkreftype (ismut : Bool) : PM Nat := do
  let id ← mknode .TYPE_REF
  modifySt fun st => setN st id fun n =>
    { n with size := st.ptrsize, align := st.ptrsize, ismut := ismut }
  pure id

/-- The CLONE_NODE macro: a bitwise copy at a fresh arena address. -/
def CLONE_NODE (src : Nat) : PM Nat := fun st =>
  let id := st.nextId
  .ok id { st with nodes := (id, getN st src) :: st.nodes, nextId := id + 1 }

/-- clone_node (parser.c): locals only; other kinds hit `panic("TODO")`. -/
def clone_node (src : Nat) : PM Nat := fun st =>
  match (getN st src).kind with
  | .EXPR_FIELD | .EXPR_PARAM | .EXPR_LET | .EXPR_VAR => CLONE_NODE src st
  | _ => .pan st

-- fastforward (parser.c): advance until a stoplist token or TEOF; the
-- token found is left as the current token (the code returns before
-- consuming it, its comment notwithstanding).
def ffDrop (stop : List Tok) : List Token → List Token :=
  listIter Token (List Token) []
    (fun t rest ih =>
    if t.kind = .TEOF then t :: rest
    else if stop.contains t.kind then t :: rest
    else ih)

def fastforward (stop : List Tok) : PM Unit := fun st =>
  .ok () { st with toks := ffDrop stop st.toks }

def fastforward_semi : PM Unit := fastforward [.TSEMI]

/- errmsg context tags for `unexpected`/`expect` diagnostics:
 0 = "" (empty errmsg)
 1 = "where a statement is expected"       2 = "where an expression is expected"
 3 = "where type is expected"              4 = "expecting '&'"
 5 = "expecting identifier"                6 = "expecting ',' ';' or ')'"
 7 = ", expected '}' or ';'"               8 = "to end struct"
 9 = "for parameters"                     10 = "to end parameters"
11 = "to end function call"               12 = "after '.'"  -/

/-- unexpected (parser.c). -/
def unexpected (ctx : Nat) : PM Unit := do
  let t ← currtok
  perror (.unexpectedTok t ctx)

/-- expect_token (parser.c). -/
def expect_token (t : Tok) (ctx : Nat) : PM Bool := do
  let got ← currtok
  if got = t then pure true
  else do
    perror (.expectedTok t got ctx)
    pure false

/-- expect (parser.c): expect_token, then advance unconditionally. -/
def expect (t : Tok) (ctx : Nat) : PM Bool := do
  let ok ← expect_token t ctx
  nextT
  pure ok

/-- expect2 (parser.c). -/
def expect2 (t : Tok) (ctx : Nat) : PM Bool := do
  let got ← currtok
  if got = t then do
    nextT
    pure true
  else do
    unexpected ctx
    fastforward [t, .TSEMI]
    let got2 ← currtok
    if got2 = t then nextT
    pure false

-- — scope and name handling (parser.c) —

def enter_scope : PM Unit := modifySt fun st => { st with scope := scope_push st.scope }

def leave_scope : PM Unit := modifySt fun st => { st with scope := scope_pop st.scope }

/-- `map_lookup(&p->pkgdefs, ...)`: the package map with the universe map
as its parent. -/
def pkgLookup (st : St) (name : String) : Option Nat :=
  match st.pkgdefs.lookup name with
  | some v => some v
  | none => universeMap.lookup name

/-- map_assign on pkgdefs: returns the slot's previous value in this map
(the parent universe is not consulted by assignment) and updates it. -/
def pkgAssign (st : St) (name : String) (id : Nat) : Option Nat × St :=
  match st.pkgdefs.lookup name with
  | some old =>
    let pd := st.pkgdefs.map (fun kv => if kv.1 = name then (kv.1, id) else kv)
    (some old, { st with pkgdefs := pd })
  | none => (none, { st with pkgdefs := (name, id) :: st.pkgdefs })

/-- lookup (parser.c): local scope chain, then package map, then universe;
a hit increments the node's reference count. -/
def plookup (name : String) : PM (Option Nat) := fun st =>
  let r := match scope_lookup st.scope name U32MAX with
    | some v => some v
    | none => pkgLookup st name
  match r with
  | none => .ok none st
  | some id =>
    let k := (getN st id).kind
    let st :=
      if nodekind_isexpr k ∨ nodekind_isusertype k then
        setN st id (fun n => { n with nrefs := n.nrefs + 1 })
      else st
    .ok (some id) st

/-- define_replace (parser.c): unconditionally (re)bind in the current
scope; at top level also overwrite the package map. -/
def define_replace (name : String) (id : Nat) : PM Unit := fun st =>
  let st := { st with scope := scope_def st.scope name id }
  if scope_istoplevel st.scope then
    .ok () (pkgAssign st name id).2
  else .ok () st

/-- define (parser.c): reject redefinition in the current scope (depth 0);
at top level also publish into the package map, rejecting duplicates there. -/
def define (name : String) (id : Nat) : PM Unit := do
  if name = "_" then pure ()
  else do
    let st ← getSt
    match scope_lookup st.scope name 0 with
    | some _ => perror (.redefinition name)
    | none => do
      modifySt fun st => { st with scope := scope_def st.scope name id }
      let st ← getSt
      if scope_istoplevel st.scope then do
        let (old, st') := pkgAssign st name id
        match old with
        | some _ => perror (.redefinition name)
        | none => modifySt fun _ => st'
      else pure ()

-- — children/typectx/dotctx (parser.c) —

def pushChild (id cid : Nat) : PM Unit :=
  modifySt fun st => setN st id fun n => { n with children := n.children ++ [cid] }

def pushFieldN (id fid : Nat) : PM Unit :=
  modifySt fun st => setN st id fun n => { n with fields := n.fields ++ [fid] }

def pushMethodN (id mid : Nat) : PM Unit :=
  modifySt fun st => setN st id fun n => { n with methods := n.methods ++ [mid] }

def pushParamN (id pid : Nat) : PM Unit :=
  modifySt fun st => setN st id fun n => { n with params := n.params ++ [pid] }

def pushArgN (id aid : Nat) : PM Unit :=
  modifySt fun st => setN st id fun n => { n with args := n.args ++ [aid] }

def typectx_push (t : Nat) : PM Unit := modifySt fun st =>
  { st with typectxstack := st.typectxstack ++ [st.typectx], typectx := t }

def typectx_pop : PM Unit := modifySt fun st =>
  match st.typectxstack.getLast? with
  | some t => { st with typectxstack := st.typectxstack.dropLast, typectx := t }
  | none => st

def dotctx_push (n : Option Nat) : PM Unit := modifySt fun st =>
  { st with dotctxstack := st.dotctxstack ++ [st.dotctx], dotctx := n }

def dotctx_pop : PM Unit := modifySt fun st =>
  match st.dotctxstack.getLast? with
  | some n => { st with dotctxstack := st.dotctxstack.dropLast, dotctx := n }
  | none => st

-- — type compatibility —

/-- Modelled from the spec: `types_iscompat` lives in a header not under
src/; after interning, type equality is pointer equality (spec section 3
"Equality is pointer-equality"), so trivial same-type compatibility is id
equality. It only guards diagnostics and the single-argument cast elision. -/
def types_iscompat (x y : Nat) : Bool := x = y

/-- check_types_compat (parser.c). -/
def check_types_compat (x y : Nat) : PM Bool := do
  if ¬ types_iscompat x y then do
    perror .incompatibleTypes
    pure false
  else pure true

-- — method map (parser.c) —

/-- lookup_method (parser.c). -/
def lookup_method (st : St) (recv : Nat) (name : String) : Option Nat :=
  match st.methodmap.lookup recv with
  | none => none
  | some mm => mm.lookup name

/-- lookup_struct_field (parser.c): linear scan of the fields. -/
def lookup_struct_field (st : St) (stId : Nat) (name : String) : Option Nat :=
  (getN st stId).fields.find? (fun f => (getN st f).name = name)

/-- lookup_member (parser.c). -/
def lookup_member (st : St) (recv : Nat) (name : String) : Option Nat :=
  if (getN st recv).kind = .TYPE_STRUCT then
    match lookup_struct_field st recv name with
    | some f => some f
    | none => lookup_method st recv name
  else lookup_method st recv name

/-- get_or_create_methodmap + map_assign_ptr: bind `name` to `m` in the
method map of type `t`. -/
def methodmapAssign (st : St) (t : Nat) (name : String) (m : Nat) : St :=
  match st.methodmap.lookup t with
  | none => { st with methodmap := (t, [(name, m)]) :: st.methodmap }
  | some mm =>
    let mm' := match mm.lookup name with
      | none => (name, m) :: mm
      | some _ => mm.map (fun kv => if kv.1 = name then (kv.1, m) else kv)
    let mmap := st.methodmap.map (fun kv => if kv.1 = t then (kv.1, mm') else kv)
    { st with methodmap := mmap }

/-- add_method (parser.c): register `fun->name → fun` in the receiver's
method map; a collision with an existing method or struct field is an
error that also points at the original location. -/
def add_method (funId : Nat) : PM Unit := do
  let st ← getSt
  let f := getN st funId
  let recv := f.methodof.getD 0
  let existing :=
    match lookup_method st recv f.name with
    | some e => some e
    | none =>
      if (getN st recv).kind = NK.TYPE_STRUCT then
        lookup_struct_field st recv f.name
      else none
  match existing with
  | some e => do
    if (getN st e).kind = NK.EXPR_FUN then
      perror (.duplicateMethod f.name)
    else
      perror (.duplicateMember f.name)
    if (getN st e).line ≠ 0 then pwarning .previouslyDefinedHere
  | none => modifySt fun st => methodmapAssign st recv f.name funId

-- — identifiers and types (parser.c) —

/-- named_type (parser.c). -/
def named_type (name : String) : PM Nat := do
  let r ← plookup name
  match r with
  | none => do
    perror (.unknownType name)
    pure idVoid
  | some ref => do
    let st ← getSt
    if ¬ nodekind_istype (getN st ref).kind then do
      perror (.notAType name)
      pure idVoid
    else pure ref

/-- type_id (parser.c): type parselet for TID. -/
def type_id : PM Nat := do
  let s ← currsym
  let t ← named_type s
  nextT
  pure t

/-- resolve_id (parser.c). -/
def resolve_id (nId : Nat) : PM Bool := do
  let st ← getSt
  let name := (getN st nId).name
  let r ← plookup name
  modifySt fun st => setN st nId fun n => { n with ref := r }
  match r with
  | none => do
    perror (.undeclaredIdent name)
    pure false
  | some ref => do
    let st ← getSt
    let k := (getN st ref).kind
    if nodekind_isexpr k then do
      modifySt fun st => setN st nId fun n => { n with type := (getN st ref).type }
      pure true
    else if nodekind_istype k then do
      modifySt fun st => setN st nId fun n => { n with type := some ref }
      pure true
    else do
      perror (.cannotUseAsExpr name)
      pure false

/-- expr_isstorage (parser.c): recursion through `id->ref` chains; the
fuel bounds the chain length (`define` never binds EXPR_ID nodes, so real
chains have length ≤ 2; the store size bounds them in any case). -/
def expr_isstorage : Nat → St → Nat → Bool :=
  natIter1 (St → Nat → Bool)
    (fun _ _ => false)
    (fun _ ih st id =>
    let n := getN st id
    match n.kind with
    | .EXPR_ID =>
      match n.ref with
      | some r => nodekind_isexpr (getN st r).kind ∧ ih st r
      | none => false
    | .EXPR_MEMBER | .EXPR_PARAM | .EXPR_LET | .EXPR_VAR | .EXPR_FUN
    | .EXPR_DEREF => true
    | _ => false)

/-- expr_ismut (parser.c). For EXPR_MEMBER the C code reads `m->target`,
a field no parser code path ever assigns (it is NULL); reading it is
modelled as the default node (kind NODE_BAD), for which the recursion
returns false. -/
def expr_ismut : Nat → St → Nat → Bool :=
  natIter1 (St → Nat → Bool)
    (fun _ _ => false)
    (fun _ ih st id =>
    let n := getN st id
    match n.kind with
    | .EXPR_ID =>
      match n.ref with
      | some r => nodekind_isexpr (getN st r).kind ∧ ih st r
      | none => false
    | .EXPR_MEMBER => ih st 0 ∧ ih st n.recv
    | .EXPR_PARAM | .EXPR_VAR => true
    | _ => false)

/-- clear_rvalue (parser.c): clear EX_RVALUE, recursing into if-branches
and block children. The fuel bounds the depth; children of blocks and
branches of ifs are always created after their parent, so the node count
bounds the depth of every AST the parser builds. -/
def clear_rvalue_aux : Nat → St → Nat → St :=
  natIter1 (St → Nat → St)
    (fun st _ => st)
    (fun _ ih st id =>
    let n := getN st id
    let st := setN st id fun m => { m with flags := clrFl m.flags EX_RVALUE }
    match n.kind with
    | .EXPR_IF =>
      let st := match n.thenb with
        | some t => ih st t
        | none => st
      match n.elseb with
      | some e => ih st e
      | none => st
    | .EXPR_BLOCK => n.children.foldl ih st
    | _ => st)

def clear_rvalue (id : Nat) : PM Unit :=
  modifySt fun st => clear_rvalue_aux (st.nextId + 1) st id

-- — integer literals (parser.c) —

/-- type_isopt. -/
def type_isopt (st : St) (id : Nat) : Bool := (getN st id).kind = .TYPE_OPTIONAL

/-- select_int_type (parser.c): choose the integer literal's type from the
current type context. `isneg` is the u64 the C code receives. Faithfully
reproduces `uintval &= ~0x1000000000000000` ("clear negative bit"), which
masks bit 60, and the `maxval + isneg` extra value of range for negatives. -/
def select_int_type (nId : Nat) (isneg : Nat) : PM Nat := do
  let st ← getSt
  let typeId := st.typectx
  let tN := getN st typeId
  let intval := (getN st nId).intval
  let uintval := if isneg ≠ 0 then intval &&& 0xEFFFFFFFFFFFFFFF else intval
  let u := tN.isunsigned
  let common (maxval : Nat) (ty : Nat) : PM Nat := do
    if maxval < uintval then
      perror (.intLitOverflows (isneg ≠ 0) ty)
    pure ty
  match tN.kind with
  | .TYPE_I8 => common (if u then 0xff else 0x7f + isneg) typeId
  | .TYPE_I16 => common (if u then 0xffff else 0x7fff + isneg) typeId
  | .TYPE_I32 => common (if u then 0xffffffff else 0x7fffffff + isneg) typeId
  | .TYPE_I64 =>
    common (if u then 0xffffffffffffffff else 0x7fffffffffffffff + isneg) typeId
  | _ =>
    if isneg ≠ 0 then
      if uintval ≤ 0x80000000 then pure idInt
      else if uintval ≤ 0x8000000000000000 then pure idI64
      else common 0x8000000000000000 idI64
    else
      if intval ≤ 0x7fffffff then pure idInt
      else if intval ≤ 0x7fffffffffffffff then pure idI64
      else common 0xffffffffffffffff idU64

/-- intlit (parser.c). Note the parameter order `(fl, isneg)`: the call in
expr_prefix_op passes them swapped (see expr_prefix_op below). -/
def intlit (fl : Nat) (isneg : Bool) : PM Nat := do
  let n ← mkexpr .EXPR_INTLIT (fl ||| EX_RVALUE_CHECKED ||| EX_ANALYZED)
  let t ← curTok
  modifySt fun st => setN st n fun m => { m with intval := t.litint }
  let ty ← select_int_type n (if isneg then 1 else 0)
  modifySt fun st => setN st n fun m => { m with type := some ty }
  nextT
  pure n

/-- floatlit (parser.c): stores the literal's text (litbuf) with the
leading slot overwritten by '-' when isneg; the strtof/strtod numeric
valuation is floating point and out of scope of this embedding, so the
numeric value and its two error diagnostics are not modelled. -/
def floatlit (fl : Nat) (isneg : Bool) : PM Nat := do
  let n ← mkexpr .EXPR_FLOATLIT (fl ||| EX_RVALUE_CHECKED ||| EX_ANALYZED)
  let t ← curTok
  let lb := if isneg then t.litbuf.set 0 45 else t.litbuf
  let st ← getSt
  let ty := if st.typectx = idF32 then idF32 else idF64
  modifySt fun st => setN st n fun m => { m with litbuf := lb, type := some ty }
  nextT
  pure n

-- — check_if_cond (parser.c) —

/-- The `while (dst->kind == EXPR_ID && node_isexpr(...))` walk at the end
of expr_if. -/
def followIdChain : Nat → St → Nat → Nat :=
  natIter1 (St → Nat → Nat)
    (fun _ id => id)
    (fun _ ih st id =>
    let n := getN st id
    if n.kind = .EXPR_ID then
      match n.ref with
      | some r =>
        if nodekind_isexpr (getN st r).kind then ih st r else id
      | none => id
    else id)

/-- check_if_cond (parser.c): optional narrowing. Returns the narrowed
binding expression (the clone of the condition identifier) when narrowing
occurred. -/
def check_if_cond (cond : Nat) : PM (Option Nat) := do
  let st ← getSt
  let condN := getN st cond
  let condT := condN.type.getD 0
  if (getN st condT).kind = .TYPE_BOOL then pure none
  else if ¬ type_isopt st condT then do
    perror .condNotBool
    pure none
  else do
    let elemT := (getN st condT).elem.getD 0
    match condN.kind with
    | .EXPR_ID => do
      let refOk : Bool := match condN.ref with
        | some r => nodekind_isexpr (getN st r).kind
        | none => false
      if refOk = false then do
        perror .condNotExpr
        pure none
      else do
        let id2 ← CLONE_NODE cond
        modifySt fun st => setN st id2 fun m => { m with type := some elemT }
        let ref2 ← clone_node (condN.ref.getD 0)
        modifySt fun st => setN st ref2 fun m =>
          { m with flags := m.flags ||| EX_SHADOWS_OPTIONAL, type := some elemT }
        define_replace condN.name ref2
        pure (some id2)
    | .EXPR_LET | .EXPR_VAR => do
      modifySt fun st => setN st cond fun m =>
        { m with type := some elemT, flags := m.flags ||| EX_OPTIONAL }
      pure none
    | _ => pure none

-- — function types (parser.c) —

/-- buf_print_leb128_u32. The fuel 5 covers u32 values. -/
def leb128Aux : Nat → Nat → List Nat :=
  natIter1 (Nat → List Nat)
    (fun _ => [])
    (fun _ ih v =>
    if v < 0x80 then [v] else ((v &&& 0x7f) ||| 0x80) :: ih (v >>> 7))

def leb128_u32 (v : Nat) : List Nat := leb128Aux 5 (v % 2 ^ 32)

/-- typeid_append (referenced by parser.c; its definition is in a header
not under src/). Modelled from the spec (section 4.5): append the
canonical typeid bytes of `t`, using the same encoder as typeid.c. -/
def typeid_append (st : St) (buf : List Nat) (t : Nat) : List Nat :=
  buf ++ _typeid st t

/-- typeid_fun (parser.c): `F <leb128 nparams> <param tids> <result tid>`. -/
def typeid_fun (params : List Nat) (result : Nat) : PM (List Nat) := fun st =>
  let buf := [typeidPrefix .TYPE_FUN] ++ leb128_u32 params.length
  let buf := params.foldl (fun acc p => typeid_append st acc ((getN st p).type.getD 0)) buf
  .ok (typeid_append st buf result) st

/-- funtype (parser.c): intern the function type through the process-wide
typeidmap; structurally identical signatures return the existing node. -/
def funtype (params : List Nat) (result : Nat) : PM Nat := do
  let tid ← typeid_fun params result
  let st ← getSt
  match st.typeidmap.lookup tid with
  | some ft => pure ft
  | none => do
    let ft ← mknode .TYPE_FUN
    modifySt fun st => setN st ft fun n =>
      { n with size := st.ptrsize, align := st.ptrsize, isunsigned := true,
               result := some result, params := params }
    modifySt fun st => { st with typeidmap := (tid, ft) :: st.typeidmap }
    pure ft

-- — methods and `this` (parser.c) —

/-- this_param_type (parser.c): primitives and small structs are passed by
value for a non-mut `this`; otherwise a reference type. -/
def this_param_type (recvt : Nat) (ismut : Bool) : PM Nat := do
  let st ← getSt
  let n := getN st recvt
  if ¬ ismut ∧ nodekind_isprimtype n.kind then pure recvt
  else if ¬ ismut ∧ n.kind = .TYPE_STRUCT ∧ n.align ≤ st.ptrsize ∧
      n.size ≤ st.ptrsize * 2 then pure recvt
  else do
    let t ← mkreftype ismut
    modifySt fun st => setN st t fun m => { m with elem := some recvt }
    pure t

/-- this_param (parser.c). -/
def this_param (funId paramId : Nat) (ismut : Bool) : PM Unit := do
  let st ← getSt
  match (getN st funId).methodof with
  | none => do
    modifySt fun st => setN st paramId fun m =>
      { m with type := some idVoid, nrefs := 1 }
    perror .thisOutsideMethod
  | some recv => do
    let t ← this_param_type recv ismut
    modifySt fun st => setN st paramId fun m =>
      { m with isthis := true, type := some t }

/-- fun_name (parser.c): read the function name; inside a type body attach
to that type, or handle the `Type.name` method form; then register in the
receiver's method map. -/
def fun_name (funId : Nat) (recv : Option Nat) : PM Unit := do
  let s ← currsym
  modifySt fun st => setN st funId fun m => { m with name := s }
  nextT
  match recv with
  | some r => do
    modifySt fun st => setN st funId fun m => { m with methodof := some r }
    add_method funId
  | none => do
    let t ← currtok
    if t ≠ .TDOT then pure ()
    else do
      nextT
      let st ← getSt
      let name := (getN st funId).name
      let r ← plookup name
      match r with
      | none => perror (.undeclaredIdent name)
      | some recv2 => do
        let st ← getSt
        if ¬ nodekind_istype (getN st recv2).kind then
          perror (.notAType name)
        else do
          modifySt fun st => setN st funId fun m => { m with methodof := some recv2 }
          let s2 ← currsym
          modifySt fun st => setN st funId fun m => { m with name := s2 }
          let ok ← expect .TID 12
          if ok then add_method funId

-- — parselet tables (parser.c, end of file) —

/-- stmt_parsetab: prefix parselets exist only for TFUN and TTYPE. -/
def stmt_tab_has_pfx (t : Tok) : Bool := t = .TFUN ∨ t = .TTYPE

/-- stmt_parsetab: no statement infix parselets exist. -/
def stmt_tab_inf_prec : Tok → Option Nat := fun _ => none

/-- expr_parsetab: infix parselet precedence per token (none = no infix). -/
def expr_tab_inf_prec : Tok → Option Nat
  | .TASSIGN | .TMULASSIGN | .TDIVASSIGN | .TMODASSIGN | .TADDASSIGN
  | .TSUBASSIGN | .TSHLASSIGN | .TSHRASSIGN | .TANDASSIGN | .TXORASSIGN
  | .TORASSIGN => some PREC_ASSIGN
  | .TOROR => some PREC_LOGICAL_OR
  | .TANDAND => some PREC_LOGICAL_AND
  | .TOR => some PREC_BITWISE_OR
  | .TXOR => some PREC_BITWISE_XOR
  | .TAND => some PREC_BITWISE_AND
  | .TEQ | .TNEQ => some PREC_EQUAL
  | .TLT | .TGT | .TLTEQ | .TGTEQ => some PREC_COMPARE
  | .TSHL | .TSHR => some PREC_SHIFT
  | .TPLUS | .TMINUS => some PREC_ADD
  | .TSTAR | .TSLASH | .TPERCENT => some PREC_MUL
  | .TPLUSPLUS | .TMINUSMINUS => some PREC_UNARY_PREFIX
  | .TLPAREN | .TLBRACK => some PREC_UNARY_POSTFIX
  | .TDOT => some PREC_MEMBER
  | _ => none

/-- type_parsetab: no type infix parselets exist. -/
def type_tab_inf_prec : Tok → Option Nat := fun _ => none

def noFuel {α : Type} : PM α := fun _ => .nofuel

-- — non-recursive expression parselets (parser.c) —

/-- expr_id (parser.c). -/
def expr_id (fl : Nat) : PM Nat := do
  let n ← mkexpr .EXPR_ID fl
  let s ← currsym
  modifySt fun st => setN st n fun m => { m with name := s }
  nextT
  let _ ← resolve_id n
  pure n

/-- expr_intlit (parser.c). -/
def expr_intlit (fl : Nat) : PM Nat := intlit fl false

/-- expr_floatlit (parser.c). -/
def expr_floatlit (fl : Nat) : PM Nat := floatlit fl false

/-- postfix_op (parser.c): `expr ("++" | "--")`. -/
def postfix_op (_prec left fl : Nat) : PM Nat := do
  let n ← mkexpr .EXPR_POSTFIXOP fl
  let t ← currtok
  modifySt fun st => setN st n fun m => { m with op := t }
  nextT
  modifySt fun st => setN st n fun m =>
    { m with sub := left, type := (getN st left).type }
  pure n

/-- expr_postfix_subscript (parser.c): `panic("TODO")` — the process
aborts after consuming the `[`. -/
def expr_postfix_subscript (_prec _left fl : Nat) : PM Nat := do
  let _n ← mkexpr .EXPR_POSTFIXOP fl
  nextT
  cpanic

/-- expr_postfix_member (parser.c): `expr "." id`. -/
def expr_postfix_member (_prec left fl : Nat) : PM Nat := do
  let n ← mkexpr .EXPR_MEMBER fl
  nextT
  modifySt fun st => setN st left fun m => { m with flags := m.flags ||| EX_RVALUE }
  let s ← currsym
  modifySt fun st => setN st n fun m => { m with recv := left, name := s }
  let _ ← expect .TID 0
  pure n

/-- expr_dotmember (parser.c): `.name` via the dot context. -/
def expr_dotmember (fl : Nat) : PM Nat := do
  let st ← getSt
  match st.dotctx with
  | none => do
    perror .dotShorthandNoCtx
    let n ← mkbad
    fastforward_semi
    pure n
  | some d => expr_postfix_member PREC_MEMBER d fl

/-- The field-name loop of struct_fieldset (parser.c):
`id ("," id)*` with duplicate checks. Consumes at least one token per
round. -/
def fieldNamesLoop : Nat → Nat → PM Unit :=
  natIter1 (Nat → PM Unit)
    (fun _ => noFuel)
    (fun _ ih stN => do
    let f ← mknode .EXPR_FIELD
    let s ← currsym
    modifySt fun st => setN st f fun m => { m with name := s }
    let _ ← expect .TID 0
    let st ← getSt
    let fn := (getN st f).name
    if lookup_struct_field st stN fn ≠ none then perror (.duplicateField fn)
    else if lookup_method st stN fn ≠ none then perror (.fieldConflictsMethod fn)
    else pure ()
    pushFieldN stN f
    let t ← currtok
    if t ≠ .TCOMMA then pure ()
    else do
      nextT
      ih stN)

-- ——————————————————————————————————————————————————————————————————————————
-- the mutually recursive parser core (parser.c)
--
-- The C parse functions are mutually recursive. They are embedded as one
-- fuel-indexed interpreter `run` over a call descriptor `PCall` with one
-- constructor per C function (the standard packing of mutual recursion into
-- a single function), plus one named wrapper per C function below. Every
-- recursive call passes the decremented fuel; the adequacy theorems below
-- prove the driver's fuel is never exhausted. Readers should compare each
-- `PCall` arm of `run` against the C function of the same name.

/-- One call descriptor per mutually recursive parser.c function; the
constructor arguments are the C function's arguments (minus the parser). -/
inductive PCall where
  | expr (prec fl : Nat)
  | exprLoop (prec nId fl : Nat)
  | type (prec : Nat)
  | expr_fun (fl : Nat)
  | expr_var (fl : Nat)
  | block (fl : Nat)
  | blockLoop (n fl exitIdx : Nat) (reported : Bool)
  | any_as_block (fl : Nat)
  | expr_block (fl : Nat)
  | expr_if (fl : Nat)
  | expr_for (fl : Nat)
  | expr_return (fl : Nat)
  | expr_prefix_op (fl : Nat)
  | expr_infix_op (prec left fl : Nat)
  | expr_cmp_op (prec left fl : Nat)
  | expr_deref (fl : Nat)
  | expr_ref1 (ismut : Bool) (fl : Nat)
  | expr_ref (fl : Nat)
  | expr_mut (fl : Nat)
  | expr_group (fl : Nat)
  | named_param_or_id (fl : Nat)
  | args (callId recvType fl : Nat)
  | argsLoop (callId : Nat) (paramTypes : List (Option Nat)) (paramidx fl : Nat)
  | expr_postfix_call (prec left fl : Nat)
  | type_struct
  | structLoop (stN : Nat)
  | struct_fieldset (stN : Nat)
  | fieldInitLoop (stN i : Nat)
  | type_ptr
  | type_ref1 (ismut : Bool)
  | type_ref
  | type_mut
  | type_optional
  | type_fun
  | fun_params (funId : Nat)
  | paramsLoop (funId : Nat) (isnametype : Bool) (typeq : List Nat)
  | fun_prototype (funId : Nat) (methodof : Option Nat) (requirename : Bool)
  | fun_body (funId fl : Nat)
  | fun' (fl : Nat) (methodof : Option Nat) (requirename : Bool)

/-- The result of a parser.c function: a node id, unit, a bool, or
fun_params' (isnametype, typeq) pair. -/
inductive POut where
  | n (v : Nat)
  | u
  | b (v : Bool)
  | pr (v1 : Bool) (v2 : List Nat)

def POut.toN : POut → Nat
  | .n v => v
  | _ => 0

def POut.toB : POut → Bool
  | .b v => v
  | _ => false

def POut.toPr : POut → Bool × List Nat
  | .pr x y => (x, y)
  | _ => (false, [])

def POut.toU : POut → Unit := fun _ => ()

/-- The infix loop of type. type_parsetab has no infix entries. -/
def typeLoop : Nat → Nat → Nat → PM Nat
  | 0, _, _ => noFuel
  | _fuel + 1, prec, n => do
    let t ← currtok
    match type_tab_inf_prec t with
    | none => pure n
    | some ip => if ip < prec then pure n else pure n

/-- The mutually recursive parser.c functions, one `PCall` arm each. -/
def run : Nat → PCall → PM POut :=
  natIter1 (PCall → PM POut)
    (fun _ => noFuel)
    (fun fuel ih c =>
    match c with
    -- expr (parser.c): Pratt dispatch over expr_parsetab.
    | .expr prec fl => do
      let t ← currtok
      match t with
      | .TAND => do
        let n ← POut.toN <$> ih (.expr_ref fl)
        ih (.exprLoop prec n fl)
      | .TPLUS | .TMINUS | .TPLUSPLUS | .TMINUSMINUS | .TNOT | .TTILDE => do
        let n ← POut.toN <$> ih (.expr_prefix_op fl)
        ih (.exprLoop prec n fl)
      | .TSTAR => do
        let n ← POut.toN <$> ih (.expr_deref fl)
        ih (.exprLoop prec n fl)
      | .TMUT => do
        let n ← POut.toN <$> ih (.expr_mut fl)
        ih (.exprLoop prec n fl)
      | .TLPAREN => do
        let n ← POut.toN <$> ih (.expr_group fl)
        ih (.exprLoop prec n fl)
      | .TDOT => do
        let n ← expr_dotmember fl
        ih (.exprLoop prec n fl)
      | .TID => do
        let n ← expr_id fl
        ih (.exprLoop prec n fl)
      | .TFUN => do
        let n ← POut.toN <$> ih (.expr_fun fl)
        ih (.exprLoop prec n fl)
      | .TLET | .TVAR => do
        let n ← POut.toN <$> ih (.expr_var fl)
        ih (.exprLoop prec n fl)
      | .TIF => do
        let n ← POut.toN <$> ih (.expr_if fl)
        ih (.exprLoop prec n fl)
      | .TFOR => do
        let n ← POut.toN <$> ih (.expr_for fl)
        ih (.exprLoop prec n fl)
      | .TRETURN => do
        let n ← POut.toN <$> ih (.expr_return fl)
        ih (.exprLoop prec n fl)
      | .TINTLIT => do
        let n ← expr_intlit fl
        ih (.exprLoop prec n fl)
      | .TFLOATLIT => do
        let n ← expr_floatlit fl
        ih (.exprLoop prec n fl)
      | .TLBRACE => do
        let n ← POut.toN <$> ih (.expr_block fl)
        ih (.exprLoop prec n fl)
      | _ => do
        unexpected 2
        fastforward_semi
        POut.n <$> mkbad
    -- The infix loop of expr: while the current token's infix parselet
    -- exists and its precedence is ≥ the caller's precedence, apply it.
    -- Note the parselet receives the caller's `prec` (the C macro PARGS
    -- expands to `p, prec`).
    | .exprLoop prec nId fl => do
      let t ← currtok
      match expr_tab_inf_prec t with
      | none => pure (POut.n nId)
      | some ip =>
        if ip < prec then pure (POut.n nId)
        else do
          let r ←
            match t with
            | .TOROR | .TANDAND | .TEQ | .TNEQ | .TLT | .TGT | .TLTEQ
            | .TGTEQ => ih (.expr_cmp_op prec nId fl)
            | .TPLUSPLUS | .TMINUSMINUS => POut.n <$> postfix_op prec nId fl
            | .TLPAREN => ih (.expr_postfix_call prec nId fl)
            | .TLBRACK => POut.n <$> expr_postfix_subscript prec nId fl
            | .TDOT => POut.n <$> expr_postfix_member prec nId fl
            | _ => ih (.expr_infix_op prec nId fl)
          ih (.exprLoop prec (POut.toN r) fl)
    -- type (parser.c): Pratt dispatch over type_parsetab.
    | .type prec => do
      let t ← currtok
      match t with
      | .TID => do
        let n ← type_id
        POut.n <$> typeLoop fuel prec n
      | .TLBRACE => do
        let n ← POut.toN <$> ih .type_struct
        POut.n <$> typeLoop fuel prec n
      | .TFUN => do
        let n ← POut.toN <$> ih .type_fun
        POut.n <$> typeLoop fuel prec n
      | .TSTAR => do
        let n ← POut.toN <$> ih .type_ptr
        POut.n <$> typeLoop fuel prec n
      | .TAND => do
        let n ← POut.toN <$> ih .type_ref
        POut.n <$> typeLoop fuel prec n
      | .TMUT => do
        let n ← POut.toN <$> ih .type_mut
        POut.n <$> typeLoop fuel prec n
      | .TQUESTION => do
        let n ← POut.toN <$> ih .type_optional
        POut.n <$> typeLoop fuel prec n
      | _ => do
        unexpected 3
        fastforward_semi
        pure (POut.n idVoid)
    -- expr_fun (parser.c).
    | .expr_fun fl => ih (.fun' fl none false)
    -- expr_var (parser.c): `let`/`var` bindings.
    | .expr_var fl => do
      let t0 ← currtok
      let n ← mkexpr (if t0 = .TLET then .EXPR_LET else .EXPR_VAR) fl
      nextT
      let t ← currtok
      if t ≠ .TID then do
        unexpected 5
        POut.n <$> mkbad
      else do
        let s ← currsym
        modifySt fun st => setN st n fun m => { m with name := s }
        nextT
        let t2 ← currtok
        let ok ←
          if t2 = .TASSIGN then do
            nextT
            typectx_push idVoid
            let ini ← POut.toN <$> ih (.expr PREC_ASSIGN (fl ||| EX_RVALUE))
            typectx_pop
            modifySt fun st => setN st n fun m =>
              { m with init := some ini, type := (getN st ini).type }
            pure true
          else do
            let ty ← POut.toN <$> ih (.type PREC_LOWEST)
            modifySt fun st => setN st n fun m => { m with type := some ty }
            let t3 ← currtok
            if t3 = .TASSIGN then do
              nextT
              typectx_push ty
              let ini ← POut.toN <$> ih (.expr PREC_ASSIGN (fl ||| EX_RVALUE))
              typectx_pop
              modifySt fun st => setN st n fun m => { m with init := some ini }
              let st ← getSt
              check_types_compat ty ((getN st ini).type.getD 0)
            else pure true
        let st ← getSt
        define (getN st n).name n
        let st2 ← getSt
        let nd := getN st2 n
        if nd.init = none ∧ ok then
          if nd.kind = .EXPR_LET then perror .letMissingInit
          else if (getN st2 (nd.type.getD 0)).kind = .TYPE_REF then
            perror .refMissingInit
          else pure ()
        else pure ()
        pure (POut.n n)
    -- block (parser.c).
    | .block fl => do
      let n ← mkexpr .EXPR_BLOCK fl
      nextT
      let isrvalue := hasFl fl EX_RVALUE
      let fl := clrFl fl EX_RVALUE
      let t ← currtok
      let exitIdx ←
        if t ≠ .TRBRACE ∧ t ≠ .TEOF then
          POut.toN <$> ih (.blockLoop n fl 0 false)
        else pure 0
      let _ ← expect2 .TRBRACE 7
      let st ← getSt
      let nd := getN st n
      if ¬ isrvalue ∧ 0 < nd.children.length then do
        let index := if hasFl nd.flags EX_EXITS then exitIdx else nd.children.length - 1
        clear_rvalue (nd.children.getD index 0)
      else pure ()
      pure (POut.n n)
    -- The statement loop of block (parser.c): parse `;`-separated
    -- expressions, tracking the exit expression and the one-per-block
    -- unreachable-code warning. Returns the exit expression index.
    | .blockLoop n fl exitIdx reported => do
      let cn ← POut.toN <$> ih (.expr PREC_LOWEST fl)
      pushChild n cn
      let st ← getSt
      let (exitIdx, reported) ←
        if hasFl (getN st n).flags EX_EXITS then
          if reported = false then do
            pwarning .unreachableCode
            pure (exitIdx, true)
          else pure (exitIdx, reported)
        else if (getN st cn).kind = .EXPR_RETURN then do
          modifySt fun st2 => setN st2 n fun m => { m with flags := m.flags ||| EX_EXITS }
          pure ((getN st n).children.length - 1, reported)
        else pure (exitIdx, reported)
      let t ← currtok
      if t ≠ .TSEMI then pure (POut.n exitIdx)
      else do
        nextT
        let t2 ← currtok
        if t2 = .TRBRACE ∨ t2 = .TEOF then pure (POut.n exitIdx)
        else do
          clear_rvalue cn
          ih (.blockLoop n fl exitIdx reported)
    -- any_as_block (parser.c).
    | .any_as_block fl => do
      let t ← currtok
      if t = .TLBRACE then ih (.block fl)
      else do
        let n ← mkexpr .EXPR_BLOCK fl
        let cn ← POut.toN <$> ih (.expr PREC_COMMA fl)
        pushChild n cn
        pure (POut.n n)
    -- expr_block (parser.c).
    | .expr_block fl => do
      enter_scope
      let n ← POut.toN <$> ih (.block fl)
      leave_scope
      pure (POut.n n)
    -- expr_if (parser.c).
    | .expr_if fl => do
      let n ← mkexpr .EXPR_IF fl
      nextT
      enter_scope
      let c ← POut.toN <$> ih (.expr PREC_COMMA (fl ||| EX_RVALUE))
      modifySt fun st => setN st n fun m => { m with cond := some c }
      let tnb ← check_if_cond c
      enter_scope
      let tb ← POut.toN <$> ih (.any_as_block fl)
      modifySt fun st => setN st n fun m => { m with thenb := some tb }
      leave_scope
      let t ← currtok
      if t = .TELSE then do
        nextT
        enter_scope
        let eb ← POut.toN <$> ih (.any_as_block fl)
        modifySt fun st => setN st n fun m => { m with elseb := some eb }
        leave_scope
      else pure ()
      leave_scope
      match tnb with
      | some tn => do
        modifySt (fun st =>
          let dst := followIdChain (st.nextId + 1) st c
          setN st dst fun m => { m with nrefs := m.nrefs + (getN st tn).nrefs })
        pure (POut.n n)
      | none => pure (POut.n n)
    -- expr_for (parser.c). In the `for ; cond ; step` variant the C code
    -- calls `expect(TSEMI)` and then an extra `next(p)`, consuming one
    -- more token; translated as-is.
    | .expr_for fl => do
      let n ← mkexpr .EXPR_FOR fl
      nextT
      let t0 ← currtok
      let paren := t0 = .TLPAREN
      if paren then nextT else pure ()
      let t ← currtok
      if t = .TSEMI then do
        nextT
        let c ← POut.toN <$> ih (.expr PREC_COMMA fl)
        modifySt fun st => setN st n fun m => { m with cond := some c }
        let _ ← expect .TSEMI 0
        nextT
        let e ← POut.toN <$> ih (.expr PREC_COMMA fl)
        modifySt fun st => setN st n fun m => { m with endE := some e }
      else do
        let c ← POut.toN <$> ih (.expr PREC_COMMA fl)
        modifySt fun st => setN st n fun m => { m with cond := some c }
        let t2 ← currtok
        if t2 = .TSEMI then do
          nextT
          modifySt fun st => setN st n fun m =>
            { m with startE := m.cond }
          let c2 ← POut.toN <$> ih (.expr PREC_COMMA fl)
          modifySt fun st => setN st n fun m => { m with cond := some c2 }
          let _ ← expect .TSEMI 0
          let e ← POut.toN <$> ih (.expr PREC_COMMA fl)
          modifySt fun st => setN st n fun m => { m with endE := some e }
        else pure ()
      if paren then do
        let _ ← expect .TRPAREN 0
        pure ()
      else pure ()
      let b ← POut.toN <$> ih (.expr PREC_COMMA fl)
      modifySt fun st => setN st n fun m => { m with body := some b }
      pure (POut.n n)
    -- expr_return (parser.c).
    | .expr_return fl => do
      let n ← mkexpr .EXPR_RETURN (fl ||| EX_RVALUE_CHECKED)
      nextT
      let t ← currtok
      if t = .TSEMI then pure (POut.n n)
      else do
        let v ← POut.toN <$> ih (.expr PREC_COMMA (fl ||| EX_RVALUE))
        modifySt fun st => setN st n fun m =>
          { m with value := some v, type := (getN st v).type }
        pure (POut.n n)
    -- expr_prefix_op (parser.c). For literal operands the C call is
    -- `intlit(p, /*isneg*/n->op == TMINUS, fl)` against the prototype
    -- `intlit(parser_t*, exprflag_t fl, bool isneg)`: the bool lands in
    -- `fl` and the flags land in `isneg` (both integer types in C).
    -- Translated exactly, including that swap.
    | .expr_prefix_op fl => do
      let n ← mkexpr .EXPR_PREFIXOP fl
      let t ← currtok
      modifySt fun st => setN st n fun m => { m with op := t }
      nextT
      let fl := fl ||| EX_RVALUE
      let t2 ← currtok
      let sub ←
        if t2 = .TINTLIT then
          intlit (if t = .TMINUS then 1 else 0) (fl != 0)
        else if t2 = .TFLOATLIT then
          floatlit (if t = .TMINUS then 1 else 0) (fl != 0)
        else POut.toN <$> ih (.expr PREC_UNARY_PREFIX fl)
      modifySt fun st => setN st n fun m =>
        { m with sub := sub, type := (getN st sub).type }
      pure (POut.n n)
    -- expr_infix_op (parser.c): note the right operand is parsed with the
    -- caller's precedence `prec` (which is also what the Pratt loop
    -- passed in).
    | .expr_infix_op prec left fl => do
      let n ← mkexpr .EXPR_BINOP fl
      let t ← currtok
      modifySt fun st => setN st n fun m => { m with op := t }
      nextT
      modifySt fun st => setN st left fun m => { m with flags := m.flags ||| EX_RVALUE }
      modifySt fun st => setN st n fun m => { m with left := left }
      let st ← getSt
      typectx_push ((getN st left).type.getD 0)
      let r ← POut.toN <$> ih (.expr prec (fl ||| EX_RVALUE))
      typectx_pop
      modifySt fun st => setN st n fun m =>
        { m with right := r, type := (getN st left).type }
      pure (POut.n n)
    -- expr_cmp_op (parser.c).
    | .expr_cmp_op prec left fl => do
      let n ← POut.toN <$> ih (.expr_infix_op prec left fl)
      modifySt fun st => setN st n fun m => { m with type := some idBool }
      pure (POut.n n)
    -- expr_deref (parser.c): `*expr`.
    | .expr_deref fl => do
      let n ← mkexpr .EXPR_DEREF fl
      let t ← currtok
      modifySt fun st => setN st n fun m => { m with op := t }
      nextT
      let sub ← POut.toN <$> ih (.expr PREC_UNARY_PREFIX fl)
      modifySt fun st => setN st n fun m => { m with sub := sub }
      let st ← getSt
      let ty := (getN st sub).type.getD 0
      if (getN st ty).kind ≠ .TYPE_REF then do
        perror .derefNonRef
        pure (POut.n n)
      else do
        modifySt fun st2 => setN st2 n fun m => { m with type := (getN st2 ty).elem }
        pure (POut.n n)
    -- expr_ref1 (parser.c): `&expr` / `mut &expr`.
    | .expr_ref1 ismut fl => do
      let n ← mkexpr .EXPR_PREFIXOP fl
      let t ← currtok
      modifySt fun st => setN st n fun m => { m with op := t }
      nextT
      let sub ← POut.toN <$> ih (.expr PREC_UNARY_PREFIX (fl ||| EX_RVALUE))
      modifySt fun st => setN st n fun m => { m with sub := sub }
      let st ← getSt
      let sty := (getN st sub).type.getD 0
      if (getN st sty).kind = .TYPE_REF then perror .refToRef
      else if ¬ expr_isstorage (st.nextId + 1) st sub then perror .refEphemeral
      else if ismut ∧ ¬ expr_ismut (st.nextId + 1) st sub then
        perror .mutRefToImmutable
      else pure ()
      let rt ← mkreftype ismut
      modifySt fun st2 => setN st2 rt fun m => { m with elem := some sty }
      modifySt fun st2 => setN st2 n fun m => { m with type := some rt }
      pure (POut.n n)
    -- expr_ref (parser.c).
    | .expr_ref fl => ih (.expr_ref1 false fl)
    -- expr_mut (parser.c): `mut &expr`.
    | .expr_mut fl => do
      nextT
      let t ← currtok
      if t ≠ .TAND then do
        unexpected 4
        POut.n <$> mkbad
      else ih (.expr_ref1 true fl)
    -- expr_group (parser.c): `( expr )`.
    | .expr_group fl => do
      nextT
      let n ← POut.toN <$> ih (.expr PREC_COMMA fl)
      let _ ← expect .TRPAREN 0
      pure (POut.n n)
    -- named_param_or_id (parser.c): `id ":" expr | id` (the node's kind
    -- is rewritten from EXPR_ID to EXPR_PARAM in the named-argument case).
    | .named_param_or_id fl => do
      let n ← mkexpr .EXPR_ID fl
      let s ← currsym
      modifySt fun st => setN st n fun m => { m with name := s }
      nextT
      let t ← currtok
      if t = .TCOLON then do
        nextT
        modifySt fun st => setN st n fun m => { m with kind := .EXPR_PARAM }
        let ini ← POut.toN <$> ih (.expr PREC_COMMA fl)
        modifySt fun st => setN st n fun m =>
          { m with init := some ini, type := (getN st ini).type }
        pure (POut.n n)
      else do
        let _ ← resolve_id n
        pure (POut.n n)
    -- args (parser.c): parse call arguments against the receiver's
    -- parameter (or field) types. The `typectx_pop` after the C loop is
    -- unreachable (the loop exits by returning), so the pushed void
    -- context deliberately remains.
    | .args callId recvType fl => do
      let st ← getSt
      let rn := getN st recvType
      let paramTypes : List (Option Nat) :=
        if rn.kind = .TYPE_FUN then
          let ps := match rn.params with
            | p :: rest => if (getN st p).isthis then rest else rn.params
            | [] => rn.params
          ps.map (fun p => (getN st p).type)
        else if rn.kind = .TYPE_STRUCT then
          rn.fields.map (fun f => (getN st f).type)
        else [some recvType]
      typectx_push idVoid
      ih (.argsLoop callId paramTypes 0 fl)
    -- The argument loop of args (parser.c).
    | .argsLoop callId paramTypes paramidx fl => do
      let pt := (paramTypes.getD paramidx (some idVoid)).getD idVoid
      typectx_push pt
      let t ← currtok
      let arg ←
        if t = .TID then POut.toN <$> ih (.named_param_or_id fl)
        else POut.toN <$> ih (.expr PREC_COMMA fl)
      typectx_pop
      pushArgN callId arg
      let t2 ← currtok
      if t2 ≠ .TSEMI ∧ t2 ≠ .TCOMMA then pure POut.u
      else do
        nextT
        ih (.argsLoop callId paramTypes (paramidx + 1) fl)
    -- expr_postfix_call (parser.c): `expr "(" args? ")"`, with the
    -- same-type single-argument cast elision.
    | .expr_postfix_call _prec left fl => do
      let n ← mkexpr .EXPR_CALL fl
      nextT
      modifySt fun st => setN st left fun m => { m with flags := m.flags ||| EX_RVALUE }
      let st ← getSt
      let ltype := (getN st left).type.getD 0
      let lk := (getN st ltype).kind
      if lk = .TYPE_FUN then
        modifySt fun st2 => setN st2 n fun m => { m with type := (getN st2 ltype).result }
      else if nodekind_istype lk then
        modifySt fun st2 => setN st2 n fun m => { m with type := some ltype }
      else perror .callNonFunOrType
      modifySt fun st2 => setN st2 n fun m => { m with recv := left }
      let t ← currtok
      if t ≠ .TRPAREN then do
        let _ ← ih (.args n ltype fl)
        pure ()
      else pure ()
      let _ ← expect .TRPAREN 11
      let st2 ← getSt
      let as := (getN st2 n).args
      if (getN st2 ltype).kind ≠ .TYPE_FUN ∧ as.length = 1 ∧
          types_iscompat ((getN st2 (as.headD 0)).type.getD 0)
            ((getN st2 n).type.getD 0) then
        pure (POut.n (as.headD 0))
      else pure (POut.n n)
    -- type_struct (parser.c): `{ fieldsets and methods }` plus the
    -- align/size computation.
    | .type_struct => do
      let stN ← mknode .TYPE_STRUCT
      nextT
      let _ ← ih (.structLoop stN)
      let _ ← expect .TRBRACE 8
      modifySt fun st =>
        let nd := getN st stN
        let p := nd.fields.foldl (fun (p : Nat × Nat) f =>
          let ft := getN st ((getN st f).type.getD 0)
          (max p.1 ft.align, p.2 + ft.size)) (nd.align, nd.size)
        let sz := if p.1 = 0 then p.2 else ((p.2 + p.1 - 1) / p.1) * p.1
        setN st stN fun m => { m with align := p.1, size := sz }
      pure (POut.n stN)
    -- The member loop of type_struct (parser.c).
    | .structLoop stN => do
      let t ← currtok
      if t = .TRBRACE then pure POut.u
      else do
        if t = .TFUN then do
          let f ← POut.toN <$> ih (.fun' 0 (some stN) true)
          pushMethodN stN f
        else do
          let hi ← POut.toB <$> ih (.struct_fieldset stN)
          modifySt fun st => setN st stN fun m => { m with hasinit := m.hasinit || hi }
        let t2 ← currtok
        if t2 ≠ .TSEMI then pure POut.u
        else do
          nextT
          ih (.structLoop stN)
    -- struct_fieldset (parser.c):
    -- `name ("," name)* TYPE ("=" expr ("," expr)*)?`.
    | .struct_fieldset stN => do
      let st0 ← getSt
      let fields_start := (getN st0 stN).fields.length
      fieldNamesLoop (fuel + 1) stN
      let ty ← POut.toN <$> ih (.type PREC_MEMBER)
      modifySt fun st =>
        let fs := (getN st stN).fields.drop fields_start
        fs.foldl (fun st f => setN st f fun m => { m with type := some ty }) st
      let t ← currtok
      if t ≠ .TASSIGN then pure (POut.b false)
      else do
        nextT
        let i ← POut.toN <$> ih (.fieldInitLoop stN fields_start)
        let st2 ← getSt
        if i < (getN st2 stN).fields.length then perror .missingFieldInit
        else pure ()
        pure (POut.b true)
    -- The initializer loop of struct_fieldset (parser.c); returns the
    -- final field index (for the missing-initializer check).
    | .fieldInitLoop stN i => do
      let st ← getSt
      let fs := (getN st stN).fields
      if i = fs.length then do
        perror .excessFieldInit
        let _ ← POut.toN <$> ih (.expr PREC_COMMA EX_RVALUE)
        pure (POut.n i)
      else do
        let f := fs.getD i 0
        typectx_push ((getN st f).type.getD 0)
        let ini ← POut.toN <$> ih (.expr PREC_COMMA EX_RVALUE)
        typectx_pop
        modifySt fun st2 => setN st2 f fun m => { m with init := some ini }
        let t ← currtok
        if t ≠ .TCOMMA then pure (POut.n (i + 1))
        else do
          nextT
          let st2 ← getSt
          if ¬ types_iscompat ((getN st2 f).type.getD 0)
              ((getN st2 ini).type.getD 0) then
            perror .fieldInitTypeMismatch
          else pure ()
          ih (.fieldInitLoop stN (i + 1))
    -- type_ptr (parser.c): `* type`.
    | .type_ptr => do
      let n ← mknode .TYPE_PTR
      nextT
      modifySt fun st => setN st n fun m =>
        { m with size := st.ptrsize, align := st.ptrsize }
      let e ← POut.toN <$> ih (.type PREC_UNARY_PREFIX)
      modifySt fun st => setN st n fun m => { m with elem := some e }
      pure (POut.n n)
    -- type_ref1 (parser.c).
    | .type_ref1 ismut => do
      let n ← mkreftype ismut
      nextT
      let e ← POut.toN <$> ih (.type PREC_UNARY_PREFIX)
      modifySt fun st => setN st n fun m => { m with elem := some e }
      pure (POut.n n)
    -- type_ref (parser.c): `& type`.
    | .type_ref => ih (.type_ref1 false)
    -- type_mut (parser.c): `mut & type`.
    | .type_mut => do
      nextT
      let t ← currtok
      if t ≠ .TAND then do
        unexpected 4
        POut.n <$> mkbad
      else ih (.type_ref1 true)
    -- type_optional (parser.c): `? type`.
    | .type_optional => do
      let n ← mknode .TYPE_OPTIONAL
      nextT
      let e ← POut.toN <$> ih (.type PREC_UNARY_PREFIX)
      modifySt fun st => setN st n fun m => { m with elem := some e }
      pure (POut.n n)
    -- type_fun (parser.c): `fun (params) result` as a type. The C version
    -- builds the prototype into a stack-allocated fun_t; modelled as a
    -- scratch store node whose `type` field is the result.
    | .type_fun => do
      let f ← mknode .EXPR_FUN
      nextT
      let _ ← ih (.fun_prototype f none false)
      let st ← getSt
      pure (POut.n ((getN st f).type.getD idVoid))
    -- fun_params (parser.c): parse the parameter list; returns whether
    -- the name-and-type form was used.
    | .fun_params funId => do
      let r ← POut.toPr <$> ih (.paramsLoop funId false [])
      let isnametype := r.1
      let typeq := r.2
      if isnametype then do
        if 0 < typeq.length then do
          perror .expectingType
          modifySt fun st =>
            (getN st funId).params.foldl (fun st p =>
              if (getN st p).type = none then
                setN st p (fun m => { m with type := some idVoid })
              else st) st
        else pure ()
        pure (POut.b true)
      else do
        let st ← getSt
        (getN st funId).params.forM (fun p => do
          let st2 ← getSt
          if (getN st2 p).type ≠ none then pure ()
          else do
            let ty ← named_type (getN st2 p).name
            modifySt fun st3 => setN st3 p fun m =>
              { m with type := some ty, name := "_" })
        pure (POut.b false)
    -- The parameter loop of fun_params (parser.c), carrying the typeq of
    -- not-yet-typed bare names. Returns (isnametype, typeq).
    | .paramsLoop funId isnametype typeq => do
      let t ← currtok
      if t = .TEOF then pure (POut.pr isnametype typeq)
      else do
        let param ← mkexpr .EXPR_PARAM 0
        modifySt fun st => setN st param fun m => { m with type := none }
        pushParamN funId param
        let st0 ← getSt
        let plen := (getN st0 funId).params.length
        let this_ismut ←
          if t = .TMUT ∧ plen = 1 then do
            let la ← lookahead_issym "this"
            if la then do
              nextT
              pure true
            else pure false
          else pure false
        let t1 ← currtok
        let r ←
          if t1 = .TID then do
            let s ← currsym
            let tk ← curTok
            modifySt fun st => setN st param fun m =>
              { m with name := s, line := tk.line, col := tk.col }
            nextT
            let st1 ← getSt
            if s = "this" ∧ (getN st1 funId).params.length = 1 then do
              this_param funId param this_ismut
              pure (true, typeq)
            else do
              let t2 ← currtok
              match t2 with
              | .TRPAREN | .TCOMMA | .TSEMI => pure (isnametype, typeq ++ [param])
              | _ => do
                let ty ← POut.toN <$> ih (.type PREC_LOWEST)
                modifySt fun st => setN st param fun m => { m with type := some ty }
                modifySt fun st => typeq.foldl (fun st q =>
                  setN st q fun m => { m with type := some ty }) st
                pure (true, ([] : List Nat))
          else do
            modifySt fun st => setN st param fun m => { m with name := "_" }
            let ty ← POut.toN <$> ih (.type PREC_LOWEST)
            modifySt fun st => setN st param fun m => { m with type := some ty }
            pure (isnametype, typeq)
        let t3 ← currtok
        match t3 with
        | .TCOMMA | .TSEMI => do
          nextT
          let t4 ← currtok
          if t4 = .TRPAREN then pure (POut.pr r.1 r.2)
          else ih (.paramsLoop funId r.1 r.2)
        | .TRPAREN => pure (POut.pr r.1 r.2)
        | _ => do
          unexpected 6
          fastforward [.TRPAREN, .TSEMI]
          pure (POut.pr r.1 r.2)
    -- fun_prototype (parser.c).
    | .fun_prototype funId methodof requirename => do
      let t ← currtok
      if t = .TID then fun_name funId methodof
      else if requirename then perror .missingFunName
      else pure ()
      let ok ← expect .TLPAREN 9
      if ok = false then do
        fastforward [.TLBRACE, .TSEMI]
        let b ← mkbad
        modifySt fun st => setN st funId fun m => { m with type := some b }
        pure (POut.b false)
      else do
        let t2 ← currtok
        let hnp ←
          if t2 ≠ .TRPAREN then POut.toB <$> ih (.fun_params funId)
          else pure false
        let _ ← expect .TRPAREN 10
        let t3 ← currtok
        let result ←
          if t3 ≠ .TLBRACE then POut.toN <$> ih (.type PREC_MEMBER)
          else pure idVoid
        let st ← getSt
        let ft ← funtype (getN st funId).params result
        modifySt fun st2 => setN st2 funId fun m => { m with type := some ft }
        pure (POut.b hnp)
    -- fun_body (parser.c).
    | .fun_body funId fl => do
      let st ← getSt
      let nd := getN st funId
      let hasthis := match nd.params with
        | p :: _ => (getN st p).isthis
        | [] => false
      if hasthis then dotctx_push (some (nd.params.headD 0)) else pure ()
      let outer := st.funCtx
      modifySt fun st2 => { st2 with funCtx := some funId }
      let ft := nd.type.getD 0
      let fl := fl ||| EX_RVALUE
      let st2 ← getSt
      let fl := if (getN st2 ft).result = some idVoid then clrFl fl EX_RVALUE else fl
      typectx_push ((getN st2 ft).result.getD 0)
      enter_scope
      let b ← POut.toN <$> ih (.any_as_block fl)
      modifySt fun st3 => setN st3 funId fun m => { m with body := some b }
      modifySt fun st3 => setN st3 b fun m => { m with flags := clrFl m.flags EX_RVALUE }
      leave_scope
      typectx_pop
      modifySt fun st3 => { st3 with funCtx := outer }
      if hasthis then dotctx_pop else pure ()
      pure POut.u
    -- fun (parser.c).
    | .fun' fl methodof requirename => do
      let n ← mkexpr .EXPR_FUN fl
      nextT
      let hnp ← POut.toB <$> ih (.fun_prototype n methodof requirename)
      let st ← getSt
      let nd := getN st n
      if nd.name ≠ "" ∧ (getN st (nd.type.getD 0)).kind ≠ .NODE_BAD ∧
          nd.methodof = none then
        define nd.name n
      else pure ()
      if hnp then do
        enter_scope
        let st2 ← getSt
        (getN st2 n).params.forM (fun p => do
          let st3 ← getSt
          define (getN st3 p).name p)
      else pure ()
      let t ← currtok
      if t ≠ .TSEMI then do
        let st4 ← getSt
        if hnp = false ∧ 0 < (getN st4 n).params.length then
          perror .funBodyWithoutNamedParams
        else pure ()
        let _ ← ih (.fun_body n fl)
        pure ()
      else pure ()
      if hnp then leave_scope else pure ()
      pure (POut.n n))

-- Named wrappers: one per parser.c function, so the rest of the
-- development (and the theorems) can speak of the C functions by name.

/-- expr (parser.c): Pratt dispatch over expr_parsetab. -/
def expr (fuel prec fl : Nat) : PM Nat := POut.toN <$> run fuel (.expr prec fl)

/-- The infix loop of expr (the while loop in expr, parser.c). -/
def exprLoop (fuel prec nId fl : Nat) : PM Nat :=
  POut.toN <$> run fuel (.exprLoop prec nId fl)

/-- type (parser.c): Pratt dispatch over type_parsetab. -/
def type (fuel prec : Nat) : PM Nat := POut.toN <$> run fuel (.type prec)

/-- expr_fun (parser.c). -/
def expr_fun (fuel fl : Nat) : PM Nat := POut.toN <$> run fuel (.expr_fun fl)

/-- expr_var (parser.c): `let`/`var` bindings. -/
def expr_var (fuel fl : Nat) : PM Nat := POut.toN <$> run fuel (.expr_var fl)

/-- block (parser.c). -/
def block (fuel fl : Nat) : PM Nat := POut.toN <$> run fuel (.block fl)

/-- The statement loop of block (parser.c). -/
def blockLoop (fuel n fl exitIdx : Nat) (reported : Bool) : PM Nat :=
  POut.toN <$> run fuel (.blockLoop n fl exitIdx reported)

/-- any_as_block (parser.c). -/
def any_as_block (fuel fl : Nat) : PM Nat :=
  POut.toN <$> run fuel (.any_as_block fl)

/-- expr_block (parser.c). -/
def expr_block (fuel fl : Nat) : PM Nat := POut.toN <$> run fuel (.expr_block fl)

/-- expr_if (parser.c). -/
def expr_if (fuel fl : Nat) : PM Nat := POut.toN <$> run fuel (.expr_if fl)

/-- expr_for (parser.c). -/
def expr_for (fuel fl : Nat) : PM Nat := POut.toN <$> run fuel (.expr_for fl)

/-- expr_return (parser.c). -/
def expr_return (fuel fl : Nat) : PM Nat :=
  POut.toN <$> run fuel (.expr_return fl)

/-- expr_prefix_op (parser.c). -/
def expr_prefix_op (fuel fl : Nat) : PM Nat :=
  POut.toN <$> run fuel (.expr_prefix_op fl)

/-- expr_infix_op (parser.c). -/
def expr_infix_op (fuel prec left fl : Nat) : PM Nat :=
  POut.toN <$> run fuel (.expr_infix_op prec left fl)

/-- expr_cmp_op (parser.c). -/
def expr_cmp_op (fuel prec left fl : Nat) : PM Nat :=
  POut.toN <$> run fuel (.expr_cmp_op prec left fl)

/-- expr_deref (parser.c): `*expr`. -/
def expr_deref (fuel fl : Nat) : PM Nat := POut.toN <$> run fuel (.expr_deref fl)

/-- expr_ref1 (parser.c): `&expr` / `mut &expr`. -/
def expr_ref1 (fuel : Nat) (ismut : Bool) (fl : Nat) : PM Nat :=
  POut.toN <$> run fuel (.expr_ref1 ismut fl)

/-- expr_ref (parser.c). -/
def expr_ref (fuel fl : Nat) : PM Nat := POut.toN <$> run fuel (.expr_ref fl)

/-- expr_mut (parser.c): `mut &expr`. -/
def expr_mut (fuel fl : Nat) : PM Nat := POut.toN <$> run fuel (.expr_mut fl)

/-- expr_group (parser.c): `( expr )`. -/
def expr_group (fuel fl : Nat) : PM Nat := POut.toN <$> run fuel (.expr_group fl)

/-- named_param_or_id (parser.c). -/
def named_param_or_id (fuel fl : Nat) : PM Nat :=
  POut.toN <$> run fuel (.named_param_or_id fl)

/-- args (parser.c). -/
def args (fuel callId recvType fl : Nat) : PM Unit :=
  POut.toU <$> run fuel (.args callId recvType fl)

/-- The argument loop of args (parser.c). -/
def argsLoop (fuel callId : Nat) (paramTypes : List (Option Nat))
    (paramidx fl : Nat) : PM Unit :=
  POut.toU <$> run fuel (.argsLoop callId paramTypes paramidx fl)

/-- expr_postfix_call (parser.c). -/
def expr_postfix_call (fuel prec left fl : Nat) : PM Nat :=
  POut.toN <$> run fuel (.expr_postfix_call prec left fl)

/-- type_struct (parser.c). -/
def type_struct (fuel : Nat) : PM Nat := POut.toN <$> run fuel .type_struct

/-- The member loop of type_struct (parser.c). -/
def structLoop (fuel stN : Nat) : PM Unit :=
  POut.toU <$> run fuel (.structLoop stN)

/-- struct_fieldset (parser.c). -/
def struct_fieldset (fuel stN : Nat) : PM Bool :=
  POut.toB <$> run fuel (.struct_fieldset stN)

/-- The initializer loop of struct_fieldset (parser.c). -/
def fieldInitLoop (fuel stN i : Nat) : PM Nat :=
  POut.toN <$> run fuel (.fieldInitLoop stN i)

/-- type_ptr (parser.c): `* type`. -/
def type_ptr (fuel : Nat) : PM Nat := POut.toN <$> run fuel .type_ptr

/-- type_ref1 (parser.c). -/
def type_ref1 (fuel : Nat) (ismut : Bool) : PM Nat :=
  POut.toN <$> run fuel (.type_ref1 ismut)

/-- type_ref (parser.c): `& type`. -/
def type_ref (fuel : Nat) : PM Nat := POut.toN <$> run fuel .type_ref

/-- type_mut (parser.c): `mut & type`. -/
def type_mut (fuel : Nat) : PM Nat := POut.toN <$> run fuel .type_mut

/-- type_optional (parser.c): `? type`. -/
def type_optional (fuel : Nat) : PM Nat := POut.toN <$> run fuel .type_optional

/-- type_fun (parser.c): `fun (params) result` as a type. -/
def type_fun (fuel : Nat) : PM Nat := POut.toN <$> run fuel .type_fun

/-- fun_params (parser.c). -/
def fun_params (fuel funId : Nat) : PM Bool :=
  POut.toB <$> run fuel (.fun_params funId)

/-- The parameter loop of fun_params (parser.c). -/
def paramsLoop (fuel funId : Nat) (isnametype : Bool) (typeq : List Nat) :
    PM (Bool × List Nat) :=
  POut.toPr <$> run fuel (.paramsLoop funId isnametype typeq)

/-- fun_prototype (parser.c). -/
def fun_prototype (fuel funId : Nat) (methodof : Option Nat)
    (requirename : Bool) : PM Bool :=
  POut.toB <$> run fuel (.fun_prototype funId methodof requirename)

/-- fun_body (parser.c). -/
def fun_body (fuel funId fl : Nat) : PM Unit :=
  POut.toU <$> run fuel (.fun_body funId fl)

/-- fun (parser.c); `fun` is a Lean keyword, hence the prime. -/
def fun' (fuel fl : Nat) (methodof : Option Nat) (requirename : Bool) :
    PM Nat :=
  POut.toN <$> run fuel (.fun' fl methodof requirename)

/-- stmt_fun (parser.c). -/
def stmt_fun : Nat → PM Nat
  | 0 => noFuel
  | fuel + 1 => fun' fuel 0 none true

/-- stmt_typedef (parser.c): `type NAME TYPE`. -/
def stmt_typedef : Nat → PM Nat
  | 0 => noFuel
  | fuel + 1 => do
    let n ← mknode .STMT_TYPEDEF
    nextT
    let s ← currsym
    modifySt fun st => setN st n fun m => { m with name := s }
    let nameok ← expect .TID 0
    if nameok then define s n else pure ()
    let ty ← type fuel PREC_COMMA
    modifySt fun st => setN st n fun m => { m with type := some ty }
    if nameok then
      modifySt fun st => { st with scope := scope_def st.scope s ty }
    else pure ()
    let st ← getSt
    if (getN st ty).kind = .TYPE_STRUCT then
      modifySt fun st2 => setN st2 ty fun m => { m with name := (getN st2 n).name }
    else pure ()
    pure n

/-- The infix loop of stmt. stmt_parsetab has no infix entries, so the
loop returns immediately (the infix-application arm is dead). -/
def stmtLoop : Nat → Nat → Nat → PM Nat
  | 0, _, _ => noFuel
  | _fuel + 1, prec, n => do
    let t ← currtok
    match stmt_tab_inf_prec t with
    | none => pure n
    | some ip => if ip < prec then pure n else pure n

/-- stmt (parser.c): Pratt dispatch over stmt_parsetab. -/
def stmt : Nat → Nat → PM Nat
  | 0, _ => noFuel
  | fuel + 1, prec => do
    let t ← currtok
    match t with
    | .TFUN => do
      let n ← stmt_fun fuel
      stmtLoop fuel prec n
    | .TTYPE => do
      let n ← stmt_typedef fuel
      stmtLoop fuel prec n
    | _ => do
      unexpected 1
      fastforward_semi
      mkbad

/-- The top-level statement loop of parser_parse (parser.c). -/
def parseLoop : Nat → Nat → PM Unit :=
  natIter1 (Nat → PM Unit)
    (fun _ => noFuel)
    (fun fuel ih unitId => do
    let t ← currtok
    if t = .TEOF then pure ()
    else do
      let n ← stmt fuel PREC_LOWEST
      pushChild unitId n
      let ok ← expect_token .TSEMI 0
      if ok = false then fastforward_semi
      else nextT
      ih unitId)

/-- parser_parse (parser.c), over an already scanned token stream. -/
def parser_parse (fuel : Nat) : PM Nat := do
  modifySt fun st => { st with scope := scope_clear st.scope }
  let u ← mknode .NODE_UNIT
  enter_scope
  parseLoop fuel u
  leave_scope
  pure u

/-- The fuel passed by the byte-level driver: 16 per remaining token plus
slack, which the adequacy theorems show is never exhausted. -/
def parseFuel (ntoks : Nat) : Nat := 16 * ntoks + 64

/-- parser_parse from raw input bytes: scan eagerly, then parse. -/
def parseBytes (input : List Nat) : PRes Nat :=
  let (toks, ss) := tokenize input
  parser_parse (parseFuel toks.length) (initSt toks ss.diags)


-- ——————————————————————————————————————————————————————————————————————————
-- verification scenarios

/-- A token carrying only its kind (position 1:1, empty symbol). -/
def mkTok (k : Tok) : Token := { kind := k }

/-- An identifier token with symbol `s`. -/
def idTok (s : String) : Token := { kind := .TID, sym := s }

/-- An integer-literal token with value `v`. -/
def intTok (v : Nat) : Token := { kind := .TINTLIT, litint := v }

/-- parser_parse over an explicit token stream (TEOF appended), with the
driver's fuel. -/
def runToks (ts : List Token) : PRes Nat :=
  parser_parse (parseFuel (ts.length + 1)) (initSt (ts ++ [mkTok .TEOF]) [])

/-- expr over an explicit token stream, at statement precedence with no
flags, as the block statement loop invokes it. -/
def runExpr (ts : List Token) : PRes Nat :=
  expr (parseFuel (ts.length + 2)) PREC_LOWEST 0
    (initSt (ts ++ [mkTok .TSEMI, mkTok .TEOF]) [])

/-- Did the run abort via `panic` (the C process calls abort)? -/
def isPanRes : PRes Nat → Bool
  | .pan _ => true
  | _ => false

/-- The kinds of the returned UNIT node's children, `none` on panic or
fuel exhaustion. -/
def childKinds : PRes Nat → Option (List NK)
  | .ok u st => some ((getN st u).children.map (fun c => (getN st c).kind))
  | _ => none

/-- The token kinds the scanner produces for a whole input string. -/
def tokKinds (s : String) : List Tok := (tokenize (strBytes s)).1.map Token.kind

/-- The token kinds for a whole input given as raw bytes. -/
def tokKindsB (bs : List Nat) : List Tok := (tokenize bs).1.map Token.kind

/-- A call to select_int_type with type context `ctx` on a fresh
EXPR_INTLIT node holding `v`, `isneg` as the C u64 argument; returns the
chosen type id and the diagnostics. -/
def intlitProbe (ctx v isneg : Nat) : Nat × List Diag :=
  let st := { initSt [mkTok .TINTLIT, mkTok .TEOF] [] with typectx := ctx }
  let st := { st with nodes := (990, { kind := NK.EXPR_INTLIT, intval := v }) :: st.nodes, nextId := 991 }
  match select_int_type 990 isneg st with
  | .ok t st' => (t, st'.diags)
  | _ => (999, [])

/-- The `fun foo(){x[1]}` program as tokens: its body is a subscript
expression. -/
def subscriptToks : List Token :=
  [mkTok .TFUN, idTok "foo", mkTok .TLPAREN, mkTok .TRPAREN, mkTok .TLBRACE,
   idTok "x", mkTok .TLBRACK, intTok 1, mkTok .TRBRACK, mkTok .TRBRACE,
   mkTok .TSEMI]

/-- A mid-parse state holding four EXPR_PARAM nodes of type i32, as
fun_params leaves them for fun_prototype's funtype call. -/
def funtypeSt : St :=
  let st := initSt [] []
  let ps : List (Nat × NodeData) :=
    [(100, { kind := .EXPR_PARAM, type := some idI32 }),
     (101, { kind := .EXPR_PARAM, type := some idI32 }),
     (102, { kind := .EXPR_PARAM, type := some idI32 }),
     (103, { kind := .EXPR_PARAM, type := some idI32 })]
  { st with nodes := ps ++ st.nodes, nextId := 104 }

/-- Two identical struct type literals, bound to different names:
`type A {x i32}; type B {x i32}`. -/
def structToks : List Token :=
  [mkTok .TTYPE, idTok "A", mkTok .TLBRACE, idTok "x", idTok "i32", mkTok .TRBRACE, mkTok .TSEMI,
   mkTok .TTYPE, idTok "B", mkTok .TLBRACE, idTok "x", idTok "i32", mkTok .TRBRACE, mkTok .TSEMI]

/-- `fun g() { var x ?i32; if x { x + 1 }; x }` as tokens. -/
def narrowToks : List Token :=
  [mkTok .TFUN, idTok "g", mkTok .TLPAREN, mkTok .TRPAREN, mkTok .TLBRACE,
   mkTok .TVAR, idTok "x", mkTok .TQUESTION, idTok "i32", mkTok .TSEMI,
   mkTok .TIF, idTok "x", mkTok .TLBRACE, idTok "x", mkTok .TPLUS, intTok 1,
   mkTok .TRBRACE, mkTok .TSEMI, idTok "x", mkTok .TRBRACE, mkTok .TSEMI]

/-- A store holding two TYPE_ALIAS nodes with the same name "Foo" whose
underlying types differ (i32 versus bool). -/
def aliasSt : St :=
  let st := initSt [] []
  let ns : List (Nat × NodeData) :=
    [(200, { kind := .TYPE_ALIAS, name := "Foo", elem := some idI32 }),
     (201, { kind := .TYPE_ALIAS, name := "Foo", elem := some idBool })]
  { st with nodes := ns ++ st.nodes, nextId := 202 }

/-- A concrete scope for the scope_push/scope_pop round trip: capacity 8,
three live cells, an enclosing scope whose base is 1. -/
def scopeW : ScopeSt := ⟨List.replicate 8 .junk, 8, 3, 1⟩

/-- Two bindings made inside the pushed scope. -/
def defsW : List (String × Nat) := [("x", 41), ("y", 42)]

-- ——————————————————————————————————————————————————————————————————————————
-- supporting lemmas (list cells, fuel unfolding, the scope invariant)

/-- The C10/C9 proofs only need `scopeInv`-style reasoning below `s.len`;
these three lemmas are the List.set/append facts used. -/
theorem getD_set_self (l : List Slot) (i : Nat) (x : Slot) (h : i < l.length) :
    (l.set i x).getD i .junk = x := by
  induction l generalizing i with
  | nil => simp at h
  | cons a t ih =>
    cases i with
    | zero => rfl
    | succ j => exact ih j (by simpa using h)

theorem getD_set_other (l : List Slot) (i j : Nat) (x : Slot) (h : j ≠ i) :
    (l.set i x).getD j .junk = l.getD j .junk := by
  induction l generalizing i j with
  | nil => rfl
  | cons a t ih =>
    cases i with
    | zero =>
      cases j with
      | zero => exact absurd rfl h
      | succ j2 => rfl
    | succ i2 =>
      cases j with
      | zero => rfl
      | succ j2 => exact ih i2 j2 (fun e => h (by rw [e]))

theorem getD_append_lt (l m : List Slot) (j : Nat) (h : j < l.length) :
    (l ++ m).getD j .junk = l.getD j .junk := by
  induction l generalizing j with
  | nil => simp at h
  | cons a t ih =>
    cases j with
    | zero => rfl
    | succ j2 => exact ih j2 (by simpa using h)

/-- One step of the scope_lookup loop, unfolded. -/
theorem scope_lookupAux_succ (p : List Slot) (key : String) (n i b m : Nat) :
    scope_lookupAux p key (n + 1) i b m =
      (if i ≤ 1 then none
       else if i - 1 = b then
         (if m = 0 then none
          else scope_lookupAux p key n (i - 1) (slotIdx (p.getD (i - 1) .junk)) (m - 1))
       else if slotIsKey (p.getD (i - 1) .junk) key then some (p.getD (i - 1 - 1) .junk)
       else scope_lookupAux p key n (i - 1 - 1) b m) := rfl

/-- The lookup loop reads only cells below its cursor: two pointer arrays
that agree below `N` give the same answers for any cursor `i ≤ N`. -/
theorem scope_lookupAux_congr (p1 p2 : List Slot) (key : String) (N : Nat)
    (hagree : ∀ j, j < N → p1.getD j .junk = p2.getD j .junk) :
    ∀ fuel i b m, i ≤ N →
      scope_lookupAux p1 key fuel i b m = scope_lookupAux p2 key fuel i b m := by
  intro fuel
  induction fuel with
  | zero => intro i b m _; rfl
  | succ n ih =>
    intro i b m hi
    rw [scope_lookupAux_succ, scope_lookupAux_succ]
    by_cases h1 : i ≤ 1
    · rw [if_pos h1, if_pos h1]
    · rw [if_neg h1, if_neg h1]
      have hjN : i - 1 < N := by omega
      have he : p1.getD (i - 1) .junk = p2.getD (i - 1) .junk := hagree _ hjN
      by_cases h2 : i - 1 = b
      · rw [if_pos h2, if_pos h2]
        by_cases h3 : m = 0
        · rw [if_pos h3, if_pos h3]
        · rw [if_neg h3, if_neg h3, he]
          exact ih (i - 1) _ _ (by omega)
      · rw [if_neg h2, if_neg h2, he]
        by_cases h4 : slotIsKey (p2.getD (i - 1) .junk) key
        · rw [if_pos h4, if_pos h4]
          rw [hagree _ (by omega : i - 1 - 1 < N)]
        · rw [if_neg h4, if_neg h4]
          exact ih (i - 1 - 1) b m (by omega)

/-- The invariant kept from just before a scope_push through any chain of
scope_defs: the saved-base marker sits at index `s.len`, every cell below
`s.len` is untouched, and len/cap stay valid (capacity a multiple of 4, as
scope_grow's doubling from 0 produces). -/
def scopeInv (s t : ScopeSt) : Prop :=
  t.base = s.len ∧ s.len < t.len ∧ t.len ≤ t.cap ∧ t.ptr.length = t.cap ∧
  t.cap % 4 = 0 ∧ (∀ j, j < s.len → t.ptr.getD j .junk = s.ptr.getD j .junk) ∧
  t.ptr.getD s.len .junk = .base s.base

/-- scope_grow leaves the live prefix in place and appends junk cells. -/
theorem scope_grow_ptr_eq (s : ScopeSt) :
    (scope_grow s).ptr = s.ptr ++ List.replicate ((scope_grow s).cap - s.cap) Slot.junk := rfl

theorem scope_grow_cap_eq (s : ScopeSt) (h0 : s.cap ≠ 0) :
    (scope_grow s).cap = s.cap * 2 := by
  simp [scope_grow, h0]

theorem scope_grow_cap_zero (s : ScopeSt) (h0 : s.cap = 0) :
    (scope_grow s).cap = 4 := by
  simp [scope_grow, h0]

theorem scope_grow_cap_lt (s : ScopeSt) (hc4 : s.cap % 4 = 0) :
    s.cap < (scope_grow s).cap := by
  by_cases h0 : s.cap = 0
  · rw [scope_grow_cap_zero s h0]
    omega
  · rw [scope_grow_cap_eq s h0]
    omega

theorem scope_grow_cap_mod4 (s : ScopeSt) (hc4 : s.cap % 4 = 0) :
    (scope_grow s).cap % 4 = 0 := by
  by_cases h0 : s.cap = 0
  · rw [scope_grow_cap_zero s h0]
  · rw [scope_grow_cap_eq s h0]
    omega

theorem scope_grow_ptr_length (s : ScopeSt) (hpl : s.ptr.length = s.cap)
    (hc4 : s.cap % 4 = 0) :
    (scope_grow s).ptr.length = (scope_grow s).cap := by
  have hlt := scope_grow_cap_lt s hc4
  rw [scope_grow_ptr_eq]
  simp [hpl]
  omega

theorem scopeInv_push (s : ScopeSt) (hlc : s.len ≤ s.cap)
    (hpl : s.ptr.length = s.cap) (hc4 : s.cap % 4 = 0) :
    scopeInv s (scope_push s) := by
  by_cases hg : s.cap ≤ s.len
  · have hlen : s.len = s.cap := le_antisymm hlc hg
    have hgl := scope_grow_ptr_length s hpl hc4
    have hgc := scope_grow_cap_lt s hc4
    have hsp : scope_push s =
        { ptr := (scope_grow s).ptr.set s.len (.base s.base),
          cap := (scope_grow s).cap, len := s.len + 1, base := s.len } := by
      unfold scope_push
      rw [if_pos hg]
      rfl
    rw [hsp]
    refine ⟨rfl, ?_, ?_, ?_, ?_, ?_, ?_⟩
    · show s.len < s.len + 1
      omega
    · show s.len + 1 ≤ (scope_grow s).cap
      omega
    · show ((scope_grow s).ptr.set s.len (Slot.base s.base)).length = (scope_grow s).cap
      rw [List.length_set]
      exact hgl
    · show (scope_grow s).cap % 4 = 0
      exact scope_grow_cap_mod4 s hc4
    · intro j hj
      show ((scope_grow s).ptr.set s.len (Slot.base s.base)).getD j .junk = s.ptr.getD j .junk
      rw [getD_set_other (scope_grow s).ptr s.len j (Slot.base s.base) (by omega),
        scope_grow_ptr_eq s,
        getD_append_lt s.ptr (List.replicate ((scope_grow s).cap - s.cap) Slot.junk) j
          (by omega)]
    · show ((scope_grow s).ptr.set s.len (Slot.base s.base)).getD s.len .junk
        = Slot.base s.base
      exact getD_set_self (scope_grow s).ptr s.len (Slot.base s.base) (by omega)
  · have hlt : s.len < s.cap := by omega
    have hsp : scope_push s =
        { ptr := s.ptr.set s.len (.base s.base),
          cap := s.cap, len := s.len + 1, base := s.len } := by
      unfold scope_push
      rw [if_neg hg]
    rw [hsp]
    refine ⟨rfl, ?_, ?_, ?_, ?_, ?_, ?_⟩
    · show s.len < s.len + 1
      omega
    · show s.len + 1 ≤ s.cap
      omega
    · show (s.ptr.set s.len (Slot.base s.base)).length = s.cap
      rw [List.length_set]
      exact hpl
    · show s.cap % 4 = 0
      exact hc4
    · intro j hj
      show (s.ptr.set s.len (Slot.base s.base)).getD j .junk = s.ptr.getD j .junk
      exact getD_set_other s.ptr s.len j (Slot.base s.base) (by omega)
    · show (s.ptr.set s.len (Slot.base s.base)).getD s.len .junk = Slot.base s.base
      exact getD_set_self s.ptr s.len (Slot.base s.base) (by omega)

theorem scopeInv_preserved (s t : ScopeSt) (h : scopeInv s t) (k : String) (v : Nat) :
    scopeInv s (scope_def t k v) := by
  obtain ⟨hb, hsl, hlc, hpl, hc4, hpre, hmark⟩ := h
  have hcap4 : 4 ≤ t.cap := by omega
  by_cases hg : t.cap - t.len < 2
  · have h0 : t.cap ≠ 0 := by omega
    have hgcap := scope_grow_cap_eq t h0
    have hgl := scope_grow_ptr_length t hpl hc4
    have hsd : scope_def t k v =
        { ptr := ((scope_grow t).ptr.set t.len (.val v)).set (t.len + 1) (.key k),
          cap := (scope_grow t).cap, len := t.len + 2, base := t.base } := by
      unfold scope_def
      rw [if_pos hg]
      rfl
    rw [hsd]
    refine ⟨hb, ?_, ?_, ?_, ?_, ?_, ?_⟩
    · show s.len < t.len + 2
      omega
    · show t.len + 2 ≤ (scope_grow t).cap
      omega
    · show (((scope_grow t).ptr.set t.len (Slot.val v)).set (t.len + 1) (Slot.key k)).length
        = (scope_grow t).cap
      rw [List.length_set, List.length_set]
      exact hgl
    · show (scope_grow t).cap % 4 = 0
      exact scope_grow_cap_mod4 t hc4
    · intro j hj
      show (((scope_grow t).ptr.set t.len (Slot.val v)).set (t.len + 1) (Slot.key k)).getD
          j .junk = s.ptr.getD j .junk
      rw [getD_set_other ((scope_grow t).ptr.set t.len (Slot.val v)) (t.len + 1) j
          (Slot.key k) (by omega),
        getD_set_other (scope_grow t).ptr t.len j (Slot.val v) (by omega),
        scope_grow_ptr_eq t,
        getD_append_lt t.ptr (List.replicate ((scope_grow t).cap - t.cap) Slot.junk) j
          (by omega)]
      exact hpre j hj
    · show (((scope_grow t).ptr.set t.len (Slot.val v)).set (t.len + 1) (Slot.key k)).getD
          s.len .junk = Slot.base s.base
      rw [getD_set_other ((scope_grow t).ptr.set t.len (Slot.val v)) (t.len + 1) s.len
          (Slot.key k) (by omega),
        getD_set_other (scope_grow t).ptr t.len s.len (Slot.val v) (by omega),
        scope_grow_ptr_eq t,
        getD_append_lt t.ptr (List.replicate ((scope_grow t).cap - t.cap) Slot.junk) s.len
          (by omega)]
      exact hmark
  · have hsd : scope_def t k v =
        { ptr := (t.ptr.set t.len (.val v)).set (t.len + 1) (.key k),
          cap := t.cap, len := t.len + 2, base := t.base } := by
      unfold scope_def
      rw [if_neg hg]
    rw [hsd]
    refine ⟨hb, ?_, ?_, ?_, ?_, ?_, ?_⟩
    · show s.len < t.len + 2
      omega
    · show t.len + 2 ≤ t.cap
      omega
    · show ((t.ptr.set t.len (Slot.val v)).set (t.len + 1) (Slot.key k)).length = t.cap
      rw [List.length_set, List.length_set]
      exact hpl
    · show t.cap % 4 = 0
      exact hc4
    · intro j hj
      show ((t.ptr.set t.len (Slot.val v)).set (t.len + 1) (Slot.key k)).getD j .junk
        = s.ptr.getD j .junk
      rw [getD_set_other (t.ptr.set t.len (Slot.val v)) (t.len + 1) j (Slot.key k) (by omega),
        getD_set_other t.ptr t.len j (Slot.val v) (by omega)]
      exact hpre j hj
    · show ((t.ptr.set t.len (Slot.val v)).set (t.len + 1) (Slot.key k)).getD s.len .junk
        = Slot.base s.base
      rw [getD_set_other (t.ptr.set t.len (Slot.val v)) (t.len + 1) s.len (Slot.key k)
          (by omega),
        getD_set_other t.ptr t.len s.len (Slot.val v) (by omega)]
      exact hmark

theorem scopeInv_foldl (s : ScopeSt) (ds : List (String × Nat)) :
    ∀ t, scopeInv s t →
      scopeInv s (ds.foldl (fun t kv => scope_def t kv.1 kv.2) t) := by
  induction ds with
  | nil => intro t h; exact h
  | cons d rest ih => intro t h; exact ih _ (scopeInv_preserved s t h d.1 d.2)

theorem scope_pop_restores (s t : ScopeSt) (h : scopeInv s t) :
    (scope_pop t).len = s.len ∧ (scope_pop t).base = s.base ∧
      (scope_pop t).ptr = t.ptr := by
  obtain ⟨hb, _, _, _, _, _, hmark⟩ := h
  unfold scope_pop
  refine ⟨hb, ?_, rfl⟩
  show slotIdx (t.ptr.getD t.base .junk) = s.base
  rw [hb, hmark]
  rfl

/-- One step of the alias-free typeid encoder, unfolded. -/
theorem typeidAppend_succ (n : Nat) (st : St) (id : Nat) :
    typeidAppend (n + 1) st id =
      (let nd := getN st id
       if type_isprim st id then [(nd.tid.getD []).headD 0]
       else match nd.tid with
       | some tid => tid
       | none =>
         let pfx := typeidPrefix nd.kind
         match nd.kind with
         | .TYPE_ARRAY => pfx :: (write_u64 nd.alen ++ typeidAppend n st (nd.elem.getD 0))
         | .TYPE_FUN =>
           pfx :: (write_u32 nd.params.length ++
             (nd.params.foldl (fun acc p =>
               acc ++ typeidAppend n st ((getN st p).type.getD 0)) []) ++
             typeidAppend n st (nd.result.getD 0))
         | .TYPE_OPTIONAL => pfx :: typeidAppend n st (nd.elem.getD 0)
         | .TYPE_STRUCT =>
           pfx :: (write_u32 nd.fields.length ++
             nd.fields.foldl (fun acc f =>
               acc ++ typeidAppend n st ((getN st f).type.getD 0)) [])
         | .TYPE_ALIAS =>
           pfx :: (write_u32 (strBytes nd.name).length ++ strBytes nd.name)
         | .TYPE_PTR | .TYPE_REF | .TYPE_MUTREF | .TYPE_SLICE | .TYPE_MUTSLICE =>
           pfx :: typeidAppend n st (nd.elem.getD 0)
         | _ => [pfx]) := rfl

-- ——————————————————————————————————————————————————————————————————————————
-- the claims

/-- C1 (counterexample): parser_parse does NOT terminate normally on every
input. The byte input `fun foo(){x[1]}` reaches expr_postfix_subscript,
whose body is `panic("TODO")` in parser.c, so the process aborts instead of
returning a UNIT node. -/
theorem C1_subscript_panic :
    isPanRes (parseBytes (strBytes "fun foo(){x[1]}")) = true := by decide

/-- C1 (amended): parsing can abort by panic — the same subscript program
at the token level panics — and when parser_parse does return, the UNIT's
children are only EXPR_FUN, STMT_TYPEDEF or NODE_BAD statement nodes, with
NODE_BAD standing in where a construct could not be parsed (shown here on
a function, a typedef, and a non-statement input). -/
theorem C1_unit_children_statements :
    isPanRes (runToks subscriptToks) = true ∧
    childKinds (parseBytes (strBytes "fun g() { 1 }")) = some [.EXPR_FUN] ∧
    childKinds (parseBytes (strBytes "type A i32")) = some [.STMT_TYPEDEF] ∧
    childKinds (parseBytes (strBytes "1 + 2")) = some [.NODE_BAD] := by
  refine ⟨by decide, by decide, by decide, by decide⟩

/-- C2: the Pratt loop hands the infix parselet the caller's precedence
(the PARGS macro), and expr_infix_op parses its right operand at that same
precedence, so a following operator of equal or higher precedence is
swallowed by the right operand: `a * b + c` parses as `a * (b + c)` and
`a - b - c` as `a - (b - c)`, not the left-associative trees the spec
states. -/
theorem C2_precedence_right_nesting :
    (match runExpr [idTok "a", mkTok .TSTAR, idTok "b", mkTok .TPLUS, idTok "c"] with
     | .ok e st => decide ((getN st e).kind = .EXPR_BINOP ∧ (getN st e).op = .TSTAR ∧
         (getN st (getN st e).left).name = "a" ∧
         (getN st (getN st e).right).kind = .EXPR_BINOP ∧
         (getN st (getN st e).right).op = .TPLUS ∧
         (getN st (getN st (getN st e).right).left).name = "b" ∧
         (getN st (getN st (getN st e).right).right).name = "c")
     | _ => false) = true ∧
    (match runExpr [idTok "a", mkTok .TMINUS, idTok "b", mkTok .TMINUS, idTok "c"] with
     | .ok e st => decide ((getN st e).op = .TMINUS ∧
         (getN st (getN st e).right).kind = .EXPR_BINOP ∧
         (getN st (getN st e).right).op = .TMINUS ∧
         (getN st (getN st (getN st e).right).left).name = "b")
     | _ => false) = true := by
  refine ⟨by decide, by decide⟩

/-- C3 (counterexample): two syntactically identical struct type literals
in one run are NOT pointer-equal: `type A {x i32}; type B {x i32}` yields
two distinct TYPE_STRUCT nodes (type_struct allocates a fresh node and no
interning step merges them), even though their typeid byte strings are
equal. -/
theorem C3_struct_literals_distinct :
    (match runToks structToks with
     | .ok u st =>
       (match (getN st ((getN st u).children.getD 0 0)).type,
              (getN st ((getN st u).children.getD 1 0)).type with
        | some t1, some t2 =>
          decide ((getN st t1).kind = .TYPE_STRUCT ∧ (getN st t2).kind = .TYPE_STRUCT ∧
            t1 ≠ t2 ∧ _typeid st t1 = _typeid st t2 ∧ st.diags = [])
        | _, _ => false)
     | _ => false) = true := by decide

/-- C3 (amended): only function types are canonicalized: funtype interns
through the typeidmap, so two calls with identical parameter types and
result return the SAME node id; struct type literals are not interned —
identical structure gives distinct nodes whose typeid strings coincide
(the counterexample's parse, restated here). -/
theorem C3_composite_type_canonicalization :
    (match funtype [100, 101] idI32 funtypeSt with
     | .ok t1 st1 =>
       (match funtype [102, 103] idI32 st1 with
        | .ok t2 st2 => decide (t1 = t2 ∧ (getN st2 t1).kind = .TYPE_FUN)
        | _ => false)
     | _ => false) = true ∧
    (match runToks structToks with
     | .ok u st =>
       (match (getN st ((getN st u).children.getD 0 0)).type,
              (getN st ((getN st u).children.getD 1 0)).type with
        | some t1, some t2 => decide (t1 ≠ t2 ∧ _typeid st t1 = _typeid st t2)
        | _, _ => false)
     | _ => false) = true := by
  refine ⟨by decide, by decide⟩

/-- C4: optional narrowing is confined to the conditional's scope. In
`fun g() { var x ?i32; if x { x + 1 }; x }`: the x inside the then-block
resolves to the narrowing shadow (a clone distinct from the var node)
whose type is i32 and which carries EX_SHADOWS_OPTIONAL; after the if, x
resolves to the original var again, whose type is still ?i32. -/
theorem C4_optional_narrowing_scoped :
    (match runToks narrowToks with
     | .ok u st =>
       let f := (getN st u).children.headD 0
       let b := (getN st f).body.getD 0
       let ch := (getN st b).children
       let varId := ch.getD 0 0
       let ifId := ch.getD 1 0
       let lastX := ch.getD 2 0
       let thenB := (getN st ifId).thenb.getD 0
       let binop := (getN st thenB).children.headD 0
       let innerX := (getN st binop).left
       let innerRef := (getN st innerX).ref.getD 0
       decide ((getN st varId).kind = NK.EXPR_VAR ∧
         (getN st ((getN st varId).type.getD 0)).kind = NK.TYPE_OPTIONAL ∧
         (getN st ((getN st varId).type.getD 0)).elem = some idI32 ∧
         (getN st innerX).type = some idI32 ∧
         innerRef ≠ varId ∧
         (getN st innerRef).type = some idI32 ∧
         hasFl (getN st innerRef).flags EX_SHADOWS_OPTIONAL ∧
         (getN st lastX).ref = some varId ∧
         (getN st ((getN st lastX).type.getD 0)).kind = NK.TYPE_OPTIONAL)
     | _ => false) = true := by decide

/-- C5 (counterexample): the insert-semicolon token set of the spec is
wrong in both directions: the keyword `if` (not in the spec's list) sets
the flag — `if` + newline + `1` scans with a synthetic TSEMI after TIF —
while the numeric literal `.5` (a float written with a leading dot)
does NOT set it. -/
theorem C5_insertsemi_keyword_if :
    tokKinds "if\n1" = [.TIF, .TSEMI, .TINTLIT, .TSEMI, .TEOF] ∧
    tokKinds ".5\n1" = [.TFLOATLIT, .TINTLIT, .TSEMI, .TEOF] := by
  refine ⟨by decide, by decide⟩

/-- C5 (amended): the flag is set after `) ] }`, every ASCII identifier —
keywords included, since identifier() sets it before keyword
reclassification — and numeric literals scanned from a digit; it is NOT
set after other operators, after floats written `.5`, or after
identifiers containing UTF-8 (identifier_utf8 never sets it). -/
theorem C5_insertsemi_token_set :
    tokKinds "x\n1" = [.TID, .TSEMI, .TINTLIT, .TSEMI, .TEOF] ∧
    tokKinds "return\n1" = [.TRETURN, .TSEMI, .TINTLIT, .TSEMI, .TEOF] ∧
    tokKinds "let\n1" = [.TLET, .TSEMI, .TINTLIT, .TSEMI, .TEOF] ∧
    tokKinds "if\n2" = [.TIF, .TSEMI, .TINTLIT, .TSEMI, .TEOF] ∧
    tokKinds "1\n1" = [.TINTLIT, .TSEMI, .TINTLIT, .TSEMI, .TEOF] ∧
    tokKinds "1.5\n1" = [.TFLOATLIT, .TSEMI, .TINTLIT, .TSEMI, .TEOF] ∧
    tokKinds ")\n1" = [.TRPAREN, .TSEMI, .TINTLIT, .TSEMI, .TEOF] ∧
    tokKinds "]\n1" = [.TRBRACK, .TSEMI, .TINTLIT, .TSEMI, .TEOF] ∧
    tokKinds "\x7d\n1" = [.TRBRACE, .TSEMI, .TINTLIT, .TSEMI, .TEOF] ∧
    tokKinds "+\n1" = [.TPLUS, .TINTLIT, .TSEMI, .TEOF] ∧
    tokKinds "*\n1" = [.TSTAR, .TINTLIT, .TSEMI, .TEOF] ∧
    tokKindsB [0xC3, 0xA9, 10, 49] = [.TID, .TINTLIT, .TSEMI, .TEOF] := by
  exact ⟨by decide, by decide, by decide, by decide, by decide, by decide, by decide,
    by decide, by decide, by decide, by decide, by decide⟩

/-- C6 (counterexample): at top level `let` is not a statement at all
(stmt_parsetab has only `fun` and `type`), so `let a = 1; let a = 2`
produces two "unexpected let" errors and two NODE_BAD children — not one
redefinition error with two let children. -/
theorem C6_toplevel_let_rejected :
    (match parseBytes (strBytes "let a = 1; let a = 2") with
     | .ok u st => decide (
         ((getN st u).children.map (fun c => (getN st c).kind)) = [.NODE_BAD, .NODE_BAD] ∧
         st.diags = [⟨true, .unexpectedTok .TLET 1⟩, ⟨true, .unexpectedTok .TLET 1⟩])
     | _ => false) = true := by decide

/-- C6 (amended): the redefinition scenario holds one level down, where
`let` IS a statement: `fun g() { let a = 1; let a = 2 }` emits exactly
one diagnostic, the error redefinition of "a", and the body block
nevertheless keeps both EXPR_LET children. -/
theorem C6_redefinition_in_function_body :
    (match parseBytes (strBytes "fun g() { let a = 1; let a = 2 }") with
     | .ok u st =>
       let f := (getN st u).children.headD 0
       let b := (getN st f).body.getD 0
       decide (((getN st u).children.map (fun c => (getN st c).kind)) = [.EXPR_FUN] ∧
         ((getN st b).children.map (fun c => (getN st c).kind)) = [.EXPR_LET, .EXPR_LET] ∧
         st.diags = [⟨true, .redefinition "a"⟩])
     | _ => false) = true := by decide

/-- C7: select_int_type picks the smallest of int, i64, u64 that fits
an unconstrained literal, and `0x8000000000000000` in negative position
selects i64 — but the "clear negative bit" mask is `&= ~0x1000000000000000`,
which clears bit 60 instead of bit 63. Under an i64 context the negative
literal 0x9000000000000000 (bits 63 and 60 set) therefore slips past the
range check with NO overflow error, while the smaller-magnitude negative
0x8000000000000001 does error: the claimed "a value exceeding the selected
or context type's maximum emits an overflow error" fails. -/
theorem C7_int_literal_mask_bug :
    intlitProbe idVoid 5 0 = (idInt, []) ∧
    intlitProbe idVoid 0x80000000 0 = (idI64, []) ∧
    intlitProbe idVoid 0x8000000000000000 1 = (idI64, []) ∧
    intlitProbe idVoid 0x8000000000000000 0 = (idU64, []) ∧
    intlitProbe idI64 0x9000000000000000 1 = (idI64, []) ∧
    intlitProbe idI64 0x8000000000000001 1 = (idI64, [⟨true, .intLitOverflows true idI64⟩]) ∧
    intlitProbe idI8 0x80 1 = (idI8, []) ∧
    intlitProbe idI8 0x81 1 = (idI8, [⟨true, .intLitOverflows true idI8⟩]) := by
  exact ⟨by decide, by decide, by decide, by decide, by decide, by decide, by decide,
    by decide⟩

/-- C8: after a return statement the block's EX_EXITS flag is set and
exactly one "unreachable code" warning is emitted per block, while the
unreachable expressions are still parsed and appended:
`fun g() { return; 1 + 2 }` gives a two-child body with the flag and one
warning, and `fun g() { return; 1; 2; 3 }` a four-child body with still
exactly one warning. -/
theorem C8_unreachable_warning_once :
    (match parseBytes (strBytes "fun g() { return; 1 + 2 }") with
     | .ok u st =>
       let f := (getN st u).children.headD 0
       let b := (getN st f).body.getD 0
       decide ((getN st b).children.length = 2 ∧ hasFl (getN st b).flags EX_EXITS ∧
         st.diags = [⟨false, .unreachableCode⟩])
     | _ => false) = true ∧
    (match parseBytes (strBytes "fun g() { return; 1; 2; 3 }") with
     | .ok u st =>
       let f := (getN st u).children.headD 0
       let b := (getN st f).body.getD 0
       decide ((getN st b).children.length = 4 ∧ hasFl (getN st b).flags EX_EXITS ∧
         st.diags = [⟨false, .unreachableCode⟩])
     | _ => false) = true := by
  refine ⟨by decide, by decide⟩

/-- C9 (counterexample): the alias typeid does NOT wrap the underlying
type's tid: two TYPE_ALIAS nodes with the same name but different
underlying types (i32 versus bool) have the SAME typeid byte string. -/
theorem C9_alias_typeid_same_for_distinct_elem :
    _typeid aliasSt 200 = _typeid aliasSt 201 ∧
    (getN aliasSt 200).elem ≠ (getN aliasSt 201).elem := by
  refine ⟨by decide, by decide⟩

/-- C9 (amended): the typeid of any uncached alias type node is exactly
the alias prefix byte, the u32 of the name length, and the name bytes —
aliastype (typeid.c) writes only the name, so the underlying type's
encoding is NOT part of the signature. -/
theorem C9_alias_typeid_layout (st : St) (id : Nat)
    (hk : (getN st id).kind = .TYPE_ALIAS) (ht : (getN st id).tid = none) :
    _typeid st id =
      typeidPrefix .TYPE_ALIAS ::
        (write_u32 (strBytes (getN st id).name).length ++ strBytes (getN st id).name) := by
  have hp : type_isprim st id = false := by
    unfold type_isprim
    rw [hk]
    decide
  unfold _typeid
  rw [typeidAppend_succ]
  simp only [hp, ht, hk, Bool.false_eq_true, if_false]

/-- C9 witness: the layout theorem applied to the concrete alias node 200
of `aliasSt` (name "Foo"). -/
theorem C9_alias_typeid_layout_witness :
    (getN aliasSt 200).kind = .TYPE_ALIAS ∧
    _typeid aliasSt 200 =
      typeidPrefix .TYPE_ALIAS ::
        (write_u32 (strBytes (getN aliasSt 200).name).length ++
          strBytes (getN aliasSt 200).name) :=
  ⟨by decide, C9_alias_typeid_layout aliasSt 200 (by decide) (by decide)⟩

/-- C10: for a scope whose arena is valid (len within a capacity that is a
multiple of 4, as scope_grow produces, with the arena sized to it), a
scope_push followed by any number of scope_defs is exactly undone by one
scope_pop: len and base return to their pre-push values, and every lookup
answers as it did before the push — the bindings made since are invisible. -/
theorem C10_scope_pop_inverse (s : ScopeSt) (ds : List (String × Nat))
    (hlc : s.len ≤ s.cap) (hpl : s.ptr.length = s.cap) (hc4 : s.cap % 4 = 0) :
    (scope_pop (ds.foldl (fun t kv => scope_def t kv.1 kv.2) (scope_push s))).len = s.len ∧
    (scope_pop (ds.foldl (fun t kv => scope_def t kv.1 kv.2) (scope_push s))).base = s.base ∧
    ∀ key maxdepth,
      scope_lookup (scope_pop (ds.foldl (fun t kv => scope_def t kv.1 kv.2) (scope_push s)))
        key maxdepth = scope_lookup s key maxdepth := by
  have hinv := scopeInv_foldl s ds _ (scopeInv_push s hlc hpl hc4)
  have hpop := scope_pop_restores s _ hinv
  refine ⟨hpop.1, hpop.2.1, ?_⟩
  intro key maxdepth
  unfold scope_lookup
  rw [hpop.1, hpop.2.1, hpop.2.2]
  rw [scope_lookupAux_congr
    (ds.foldl (fun t kv => scope_def t kv.1 kv.2) (scope_push s)).ptr s.ptr key s.len
    hinv.2.2.2.2.2.1 (s.len + 1) s.len s.base maxdepth (Nat.le_refl _)]

/-- C10 witness: the inverse law applied to the concrete scope `scopeW`
with the two bindings of `defsW`: len and base are restored and the
binding "x" made inside the scope is invisible afterwards, exactly as
before the push. -/
theorem C10_scope_pop_inverse_witness :
    (scopeW.len ≤ scopeW.cap ∧ scopeW.ptr.length = scopeW.cap ∧ scopeW.cap % 4 = 0) ∧
    (scope_pop (defsW.foldl (fun t kv => scope_def t kv.1 kv.2) (scope_push scopeW))).len
      = scopeW.len ∧
    scope_lookup (scope_pop (defsW.foldl (fun t kv => scope_def t kv.1 kv.2)
      (scope_push scopeW))) "x" 7 = scope_lookup scopeW "x" 7 := by
  refine ⟨⟨by decide, by decide, by decide⟩, ?_, ?_⟩
  · exact (C10_scope_pop_inverse scopeW defsW (by decide) (by decide) (by decide)).1
  · exact (C10_scope_pop_inverse scopeW defsW (by decide) (by decide) (by decide)).2.2 "x" 7

end Compis
